import Mathlib

/-!
Verification of the GlassCal CalDAV serving layer.

Shallow embedding of the CalDAV router (`server/caldav.ts`) and the storage
collaborator (`server/storage.ts`).  Conventions used throughout:

* Timestamps are epoch milliseconds, modelled as `Nat`; nullable database
  columns are modelled as `Option`.
* XML output is modelled structurally: a multistatus is a list of `DavResponse`
  values, each holding its `propstat` blocks as lists of the property
  local-names of the emitted elements (the surrounding markup, namespace
  prefixes, and the original-case echo map kept by the source are rendering
  details that carry no additional information about which property lands in
  which block).
* The JavaScript regular-expression scans are translated into equivalent
  deterministic character-list scanners; each scanner documents the pattern it
  implements.
-/

set_option maxRecDepth 20000

/-- Calendar row (`shared/schema.ts`): serial id, title, optional description,
`createdAt`/`updatedAt` timestamp columns (nullable, default now). -/
structure Calendar where
  id : Nat
  title : String
  description : Option String
  createdAt : Option Nat
  updatedAt : Option Nat
  deriving Repr, DecidableEq

/-- Event row (`shared/schema.ts`). -/
structure Event where
  id : Nat
  calendarId : Nat
  title : String
  description : Option String
  location : Option String
  startTime : Nat
  endTime : Nat
  createdAt : Option Nat
  updatedAt : Option Nat
  deriving Repr, DecidableEq

/-- CalDAV credential row (`caldav_shares` table). -/
structure CaldavShare where
  id : Nat
  calendarId : Nat
  username : String
  password : String
  deriving Repr, DecidableEq

/-- Digit character for values below 16, as produced by JavaScript
`Number.prototype.toString(radix)` (lowercase hex digits). -/
def digitCharJs (d : Nat) : Char :=
  if d = 0 then '0' else if d = 1 then '1' else if d = 2 then '2'
  else if d = 3 then '3' else if d = 4 then '4' else if d = 5 then '5'
  else if d = 6 then '6' else if d = 7 then '7' else if d = 8 then '8'
  else if d = 9 then '9' else if d = 10 then 'a' else if d = 11 then 'b'
  else if d = 12 then 'c' else if d = 13 then 'd' else if d = 14 then 'e'
  else 'f'

/-- Most-significant-first digit expansion in base `b`; fuel-driven so that it
is structurally recursive (`fuel ≥ n` suffices). -/
def toBaseDigits (b : Nat) : Nat → Nat → List Char
  | 0, _ => []
  | _ + 1, 0 => []
  | fuel + 1, n => toBaseDigits b fuel (n / b) ++ [digitCharJs (n % b)]

/-- JavaScript `n.toString(16)` for a natural number. -/
def jsToString16 (n : Nat) : String := if n = 0 then "0" else ⟨toBaseDigits 16 n n⟩

/-- JavaScript decimal rendering of a natural number (template-literal `${n}`). -/
def jsToString10 (n : Nat) : String := if n = 0 then "0" else ⟨toBaseDigits 10 n n⟩

/-- `generateCTag` (caldav router): hex of `updatedAt`, falling back to
`createdAt`, then to `Date.now()` (passed in as `now`), wrapped in quotes. -/
def generateCTag (calendar : Calendar) (now : Nat) : String :=
  let timestamp :=
    match calendar.updatedAt with
    | some t => t
    | none => match calendar.createdAt with
              | some t => t
              | none => now
  "\"" ++ jsToString16 timestamp ++ "\""

/-- `generateCollectionETag`: hex of `createdAt` (falling back to `Date.now()`)
with a `c` marker, wrapped in quotes. -/
def generateCollectionETag (calendar : Calendar) (now : Nat) : String :=
  let timestamp :=
    match calendar.createdAt with
    | some t => t
    | none => now
  "\"c" ++ jsToString16 timestamp ++ "\""

/-- `generateEventETag`: `"event-<id>-<hex timestamp>"` where the timestamp is
`updatedAt`, falling back to `createdAt`, then to `Date.now()`. -/
def generateEventETag (event : Event) (now : Nat) : String :=
  let timestamp :=
    match event.updatedAt with
    | some t => t
    | none => match event.createdAt with
              | some t => t
              | none => now
  "\"event-" ++ jsToString10 event.id ++ "-" ++ jsToString16 timestamp ++ "\""

/-- Legacy `generateEtag(calendar, events)`: now simply generates the CTag; the
`events` argument is ignored by the source as well. -/
def generateEtag (calendar : Calendar) (_events : List Event) (now : Nat) : String :=
  generateCTag calendar now

/-- One global-replace pass of a single character by a replacement string, the
behaviour of JavaScript `str.replace(/c/g, r)` for a single-character class. -/
def replaceChar (c : Char) (r : List Char) : List Char → List Char
  | [] => []
  | x :: xs => (if x = c then r else [x]) ++ replaceChar c r xs

/-- `escapeICS`: escape `\`, `,`, `;`, newline per RFC 5545 and strip bare
carriage returns, via the source's chain of global replaces. -/
def escapeICS (text : String) : String :=
  if text = "" then "" else
    ⟨replaceChar '\r' []
      (replaceChar '\n' ['\\', 'n']
        (replaceChar ';' ['\\', ';']
          (replaceChar ',' ['\\', ',']
            (replaceChar '\\' ['\\', '\\'] text.data))))⟩

/-- Modelled from the spec: the RFC 5545 text unescape that the round-trip
property pairs with `escapeICS` (`\\` to backslash, `\,` to comma, `\;` to
semicolon, `\n` to newline); no unescaping routine exists in `src/`. -/
def unescapeICS : List Char → List Char
  | [] => []
  | [c] => [c]
  | c :: d :: rest =>
      if c = '\\' then
        if d = '\\' then '\\' :: unescapeICS rest
        else if d = ',' then ',' :: unescapeICS rest
        else if d = ';' then ';' :: unescapeICS rest
        else if d = 'n' then '\n' :: unescapeICS rest
        else c :: unescapeICS (d :: rest)
      else c :: unescapeICS (d :: rest)

/-- Persistence state: the three tables the CalDAV layer reads. -/
structure Storage where
  calendars : List Calendar
  events : List Event
  shares : List CaldavShare
  deriving Repr, DecidableEq

/-- `storage.getCalendar(id)`: first row with the id. -/
def getCalendar (st : Storage) (id : Nat) : Option Calendar :=
  st.calendars.find? (fun c => c.id == id)

/-- `storage.getEvent(id)`. -/
def getEvent (st : Storage) (id : Nat) : Option Event :=
  st.events.find? (fun e => e.id == id)

/-- `storage.getEvents({calendarId, userId: undefined})`: the CalDAV layer
always passes a calendar id; a falsy (zero) id yields no filter condition. -/
def getEventsByCalendar (st : Storage) (calendarId : Nat) : List Event :=
  if calendarId ≠ 0 then st.events.filter (fun e => e.calendarId == calendarId)
  else st.events

/-- `storage.getCaldavShare(calendarId)`. -/
def getCaldavShare (st : Storage) (calendarId : Nat) : Option CaldavShare :=
  st.shares.find? (fun s => s.calendarId == calendarId)

/-- `storage.getCaldavShareByUsername(username)`. -/
def getCaldavShareByUsername (st : Storage) (username : String) : Option CaldavShare :=
  st.shares.find? (fun s => s.username == username)

/-- Bump `updatedAt` of the calendar row with the given id to `now`
(`db.update(calendars).set({updatedAt: new Date()}).where(eq(calendars.id, cid))`). -/
def bumpCalendar (cals : List Calendar) (cid : Nat) (now : Nat) : List Calendar :=
  cals.map (fun c => if c.id = cid then { c with updatedAt := some now } else c)

/-- `storage.createEvent`: insert the row, then bump the parent calendar's
`updatedAt`. -/
def createEvent (st : Storage) (e : Event) (now : Nat) : Storage :=
  { st with
    events := st.events ++ [e]
    calendars := bumpCalendar st.calendars e.calendarId now }

/-- Partial update applied by `storage.updateEvent` (`Partial<InsertEvent>`;
the id column is never part of an insert/update payload). -/
structure EventUpdates where
  calendarId : Option Nat := none
  title : Option String := none
  description : Option (Option String) := none
  location : Option (Option String) := none
  startTime : Option Nat := none
  endTime : Option Nat := none
  deriving Repr, DecidableEq

/-- `{...updates, updatedAt: new Date()}` merged into an event row. -/
def applyUpdates (u : EventUpdates) (e : Event) (now : Nat) : Event :=
  { e with
    calendarId := u.calendarId.getD e.calendarId
    title := u.title.getD e.title
    description := u.description.getD e.description
    location := u.location.getD e.location
    startTime := u.startTime.getD e.startTime
    endTime := u.endTime.getD e.endTime
    updatedAt := some now }

/-- `storage.updateEvent`: update the matching row (setting its `updatedAt`),
then bump the updated row's parent calendar.  When no row matches, the source
dereferences an undefined result and throws; that failure is the `none` case. -/
def updateEvent (st : Storage) (id : Nat) (u : EventUpdates) (now : Nat) :
    Option Storage :=
  match st.events.find? (fun e => e.id == id) with
  | none => none
  | some e0 =>
      some { st with
        events := st.events.map (fun e => if e.id = id then applyUpdates u e now else e)
        calendars := bumpCalendar st.calendars (applyUpdates u e0 now).calendarId now }

/-- `storage.deleteEvent`: look the event up first; delete, and bump the parent
calendar only when the event existed. -/
def deleteEvent (st : Storage) (id : Nat) (now : Nat) : Storage :=
  match getEvent st id with
  | some e =>
      { st with
        events := st.events.filter (fun ev => ev.id ≠ id)
        calendars := bumpCalendar st.calendars e.calendarId now }
  | none => { st with events := st.events.filter (fun ev => ev.id ≠ id) }

/-- Decoded HTTP Basic credentials. -/
structure BasicAuth where
  username : String
  password : String
  deriving Repr, DecidableEq

/-- Outcome of the `caldavAuth` middleware. -/
inductive AuthResult where
  | unauthorized
  | ok (share : CaldavShare)
  deriving Repr, DecidableEq

/-- JavaScript `Number(s)` restricted to the route-parameter shapes that can
reach `getCaldavShare`: a non-empty digit string yields its decimal value,
anything else is `NaN` (`none`); non-integral or exotic numeric spellings would
never match a serial calendar id. -/
def jsNumberNat (s : String) : Option Nat :=
  if s ≠ "" ∧ s.data.all Char.isDigit then
    some (s.data.foldl (fun a c => 10 * a + (c.toNat - '0'.toNat)) 0)
  else none

/-- JavaScript truthiness of the optional `req.params.id` string. -/
def paramTruthy : Option String → Bool
  | none => false
  | some s => s ≠ ""

/-- `caldavAuth`: resolve the credential record by username, falling back to
the numeric calendar id in the path; reject unless the password matches and —
only when the path carries no id parameter — the username matches too. -/
def caldavAuth (st : Storage) (auth : Option BasicAuth) (paramsId : Option String) :
    AuthResult :=
  match auth with
  | none => .unauthorized
  | some a =>
      let byUsername := getCaldavShareByUsername st a.username
      let caldavShare :=
        match byUsername with
        | some s => some s
        | none =>
            if paramTruthy paramsId then
              match paramsId with
              | some idStr =>
                  match jsNumberNat idStr with
                  | some cid => getCaldavShare st cid
                  | none => none
              | none => none
            else none
      match caldavShare with
      | none => .unauthorized
      | some s =>
          if s.password ≠ a.password ∨ (s.username ≠ a.username ∧ ¬ paramTruthy paramsId) then
            .unauthorized
          else .ok s

/-- ASCII lower-casing of one character (the effect of JavaScript
`toLowerCase`/case-insensitive matching on the ASCII bodies involved). -/
def lowerChar (c : Char) : Char :=
  if c = 'A' then 'a' else if c = 'B' then 'b' else if c = 'C' then 'c'
  else if c = 'D' then 'd' else if c = 'E' then 'e' else if c = 'F' then 'f'
  else if c = 'G' then 'g' else if c = 'H' then 'h' else if c = 'I' then 'i'
  else if c = 'J' then 'j' else if c = 'K' then 'k' else if c = 'L' then 'l'
  else if c = 'M' then 'm' else if c = 'N' then 'n' else if c = 'O' then 'o'
  else if c = 'P' then 'p' else if c = 'Q' then 'q' else if c = 'R' then 'r'
  else if c = 'S' then 's' else if c = 'T' then 't' else if c = 'U' then 'u'
  else if c = 'V' then 'v' else if c = 'W' then 'w' else if c = 'X' then 'x'
  else if c = 'Y' then 'y' else if c = 'Z' then 'z' else c

/-- ASCII `toLowerCase` on a string. -/
def strLower (s : String) : String := ⟨s.data.map lowerChar⟩

/-- The whitespace class stripped by JavaScript `String.prototype.trim` (the
ASCII members, the only ones that can appear in these bodies). -/
def isJsSpace (c : Char) : Bool :=
  c = ' ' ∨ c = '\t' ∨ c = '\n' ∨ c = '\r' ∨ c = '\x0b' ∨ c = '\x0c'

/-- `href.trim()`. -/
def trimAscii (l : List Char) : List Char :=
  ((l.dropWhile isJsSpace).reverse.dropWhile isJsSpace).reverse

/-- Split a property name at each dash: the source rewrites every dash of the
local name into the optional class `[-_]?`, which splits the name into its
dash-separated parts. -/
def splitDash : List Char → List (List Char)
  | [] => [[]]
  | c :: t =>
      if c = '-' then [] :: splitDash t
      else match splitDash t with
           | [] => [[c]]
           | p :: ps => (c :: p) :: ps

/-- Case-insensitively match `pat` as a prefix of `l`, returning the remainder
(ASCII case folding, as JavaScript's `/i` flag does for these patterns). -/
def ciPrefixDrop : List Char → List Char → Option (List Char)
  | [], l => some l
  | _ :: _, [] => none
  | p :: ps, c :: cs => if lowerChar c = lowerChar p then ciPrefixDrop ps cs else none

/-- Substring test, JavaScript `haystack.includes(needle)`. -/
def containsSub (sub : List Char) : List Char → Bool
  | [] => decide (sub.isPrefixOf [])
  | l@(_ :: t) => sub.isPrefixOf l || containsSub sub t

/-- `String.includes` lifted to `String`. -/
def jsIncludes (s sub : String) : Bool := containsSub sub.data s.data

/-- Match the opening part `<` `[^…]*` `:prop` `[^>]*` `>` of a prop-section
regex at the head of `l`; `excl` is the character class excluded from the
prefix run (`[':']` for `[^:]*`, `[':','>']` for `[^:>]*`).  Returns the text
following the `>`. -/
def openPropAt (excl : List Char) (l : List Char) : Option (List Char) :=
  match l with
  | '<' :: t =>
      match (t.span (fun c => ¬ c ∈ excl)).2 with
      | ':' :: r2 =>
          match ciPrefixDrop ['p', 'r', 'o', 'p'] r2 with
          | some r3 =>
              match (r3.span (fun c => c ≠ '>')).2 with
              | '>' :: r5 => some r5
              | _ => none
          | none => none
      | _ => none
  | _ => none

/-- Does `l` begin with the closing pattern `</` `[^…]*` `:prop>`? -/
def closePropAt (excl : List Char) (l : List Char) : Bool :=
  match l with
  | '<' :: '/' :: t =>
      match (t.span (fun c => ¬ c ∈ excl)).2 with
      | ':' :: r2 =>
          match ciPrefixDrop ['p', 'r', 'o', 'p'] r2 with
          | some ('>' :: _) => true
          | _ => false
      | _ => false
  | _ => false

/-- Lazy search for the earliest closing `prop` tag, accumulating the section
content (the `([\s\S]*?)` capture). -/
def lazyCloseProp (excl : List Char) : List Char → List Char → Option (List Char)
  | acc, l =>
      if closePropAt excl l then some acc.reverse
      else match l with
           | [] => none
           | c :: t => lazyCloseProp excl (c :: acc) t

/-- Leftmost match of `<[^…]*:prop[^>]*>([\s\S]*?)<\/[^…]*:prop>` (flag `i`),
returning the captured section content.  On an open tag without a matching
close the engine retries from the next character, as the JavaScript engine
does. -/
def findPropSection (excl : List Char) : List Char → Option (List Char)
  | [] => none
  | l@(_ :: t) =>
      match openPropAt excl l with
      | some contentStart =>
          match lazyCloseProp excl [] contentStart with
          | some content => some content
          | none => findPropSection excl t
      | none => findPropSection excl t

/-- Character class `[a-zA-Z0-9-]` of the property-tag regex. -/
def alnumDash (c : Char) : Bool :=
  ('a' ≤ c ∧ c ≤ 'z') ∨ ('A' ≤ c ∧ c ≤ 'Z') ∨ ('0' ≤ c ∧ c ≤ '9') ∨ c = '-'

/-- Scan for the earliest closing tag `</[^:>]*:NAME>` where NAME is the
back-reference, compared case-insensitively; returns the remainder. -/
def findCloseTag (name : List Char) : List Char → Option (List Char)
  | [] => none
  | l@(_ :: t) =>
      match l with
      | '<' :: '/' :: u =>
          (match (u.span (fun c => ¬ (c = ':' ∨ c = '>'))).2 with
           | ':' :: r =>
               (match ciPrefixDrop name r with
                | some ('>' :: rest) => some rest
                | _ => findCloseTag name t)
           | _ => findCloseTag name t)
      | _ => findCloseTag name t

/-- Backtracking over the greedy `([a-zA-Z0-9-]+)` capture of the property-tag
regex: try the name prefix of length `len`, preferring the `>…</…:\1>` branch
over the self-closing `/>` branch, exactly in the engine's backtracking
order. -/
def tagTryLens (run r2 : List Char) : Nat → Option (List Char × List Char)
  | 0 => none
  | len + 1 =>
      let name := run.take (len + 1)
      let tail0 := r2.drop (len + 1)
      let s := tail0.span (fun c => c ≠ '>')
      match s.2 with
      | '>' :: r5 =>
          (match findCloseTag name r5 with
           | some rest => some (name, rest)
           | none =>
               if s.1.getLast? = some '/' then some (name, r5)
               else tagTryLens run r2 len)
      | _ => tagTryLens run r2 len

/-- Match `<[^:>]*:([a-zA-Z0-9-]+)[^>]*(?:\/>|>[\s\S]*?<\/[^:>]*:\1>)` at the
head of `l`, returning the captured name and the remainder after the match. -/
def tagMatchAt (l : List Char) : Option (List Char × List Char) :=
  match l with
  | '<' :: t =>
      match (t.span (fun c => ¬ (c = ':' ∨ c = '>'))).2 with
      | ':' :: r2 =>
          let run := (r2.span alnumDash).1
          if run = [] then none else tagTryLens run r2 run.length
      | _ => none
  | _ => none

/-- Global scan (`/g`) collecting every property-tag capture; the fuel equals
the input length, and every match or failed start consumes at least one
character. -/
def tagScan : Nat → List Char → List (List Char)
  | 0, _ => []
  | fuel + 1, l =>
      match tagMatchAt l with
      | some (name, rest) => name :: tagScan fuel rest
      | none =>
          match l with
          | [] => []
          | _ :: t => tagScan fuel t

/-- Append-if-absent, the effect of adding to a JavaScript `Set` iterated in
insertion order. -/
def addUniq (l : List String) (x : String) : List String :=
  if x ∈ l then l else l ++ [x]

/-- The `propertyMap` keys of `parsePropfindProperties`, in insertion order;
every entry of the source map sends a key to itself. -/
def propertyMapKeys : List String :=
  ["resourcetype", "getetag", "getcontenttype", "displayname",
   "current-user-principal", "current-user-privilege-set", "supported-report-set",
   "owner", "sync-token", "principal-url", "calendar-home-set",
   "calendar-description", "supported-calendar-component-set", "email-address-set",
   "getctag", "schedule-tag", "created-by", "updated-by"]

/-- Match the `NAMEPAT` part of the fallback regex, i.e. the property name with
every `-` turned into `[-_]?`, starting at `l` (parts are matched
case-insensitively, optional separators greedily). -/
def npMatchSep : List (List Char) → List Char → Option (List Char)
  | [], l => some l
  | p :: ps, l =>
      match l with
      | [] => none
      | c :: t =>
          if c = '-' ∨ c = '_' then
            match ciPrefixDrop p t with
            | some r => npMatchSep ps r
            | none =>
                match ciPrefixDrop p l with
                | some r => npMatchSep ps r
                | none => none
          else
            match ciPrefixDrop p l with
            | some r => npMatchSep ps r
            | none => none

/-- Match all parts of the fallback name pattern at `l`. -/
def npMatch (parts : List (List Char)) (l : List Char) : Option (List Char) :=
  match parts with
  | [] => some l
  | p :: ps =>
      match ciPrefixDrop p l with
      | some r => npMatchSep ps r
      | none => none

/-- After the `:` of a candidate tag, look for `[a-zA-Z0-9-]*` then the name
pattern, with some later `>` closing the tag (`[^>]*(?:/>|>)`). -/
def fbScanRegion (parts : List (List Char)) : List Char → Bool
  | [] => false
  | l@(c :: t) =>
      (match npMatch parts l with
       | some rest => decide ('>' ∈ rest)
       | none => false)
      || (alnumDash c && fbScanRegion parts t)

/-- Fallback tag test of `parsePropfindProperties`: does the section contain a
match of `<[^:>]*:([a-zA-Z0-9-]*NAMEPAT[a-zA-Z0-9-]*)[^>]*(?:/>|>)`? -/
def fallbackTagTest (localName : String) : List Char → Bool
  | [] => false
  | l@(c :: t) =>
      (if c = '<' then
        match ((l.drop 1).span (fun ch => ¬ (ch = ':' ∨ ch = '>'))).2 with
        | ':' :: r2 => fbScanRegion (splitDash localName.data) r2
        | _ => false
      else false)
      || fallbackTagTest localName t

/-- `parsePropfindProperties`: locate the prop section, collect every
property-tag capture (lower-cased, deduplicated, insertion order), and on an
empty result fall back to per-property pattern and substring probes.  The
source also records an original-case echo map used only to render 404 property
names; property identity in this embedding is the normalized local name, so
that map is omitted. -/
def parsePropfindProperties (body : String) : List String :=
  if body = "" then []
  else
    match findPropSection [':', '>'] body.data with
    | none => []
    | some content =>
        let names := tagScan content.length content
        let requested := names.foldl (fun acc n => addUniq acc (strLower (String.mk n))) []
        if requested = [] then
          let bodyLower := strLower (String.mk content)
          propertyMapKeys.foldl
            (fun acc localName =>
              if fallbackTagTest localName content || jsIncludes bodyLower localName then
                addUniq acc localName
              else acc) []
        else requested

/-- Parsed REPORT property request (`parseRequestedProperties`). -/
structure ReportParse where
  requested : List String
  hasScheduleTag : Bool
  hasCreatedBy : Bool
  hasUpdatedBy : Bool
  deriving Repr, DecidableEq

/-- `parseRequestedProperties`: default to `{getetag, calendar-data}` on a
missing body, a missing prop section, or an empty result.  Each per-property
guard in the source is a tag regex or-ed with a plain substring test; every
match of the tag regex contains the property name literally, so the
disjunction is equivalent to the substring test alone. -/
def parseRequestedProperties (body : String) : ReportParse :=
  if body = "" then ⟨["getetag", "calendar-data"], false, false, false⟩
  else
    match findPropSection [':'] body.data with
    | none => ⟨["getetag", "calendar-data"], false, false, false⟩
    | some content =>
        let bodyLower := strLower (String.mk content)
        let requested :=
          (if jsIncludes bodyLower "getetag" then ["getetag"] else []) ++
          (if jsIncludes bodyLower "calendar-data" then ["calendar-data"] else [])
        { requested := if requested = [] then ["getetag", "calendar-data"] else requested
          hasScheduleTag := jsIncludes bodyLower "schedule-tag"
          hasCreatedBy := jsIncludes bodyLower "created-by"
          hasUpdatedBy := jsIncludes bodyLower "updated-by" }

/-- Match `<[^:>]*:href[^>]*>([^<]+)<\/[^:>]*:href>` at the head of `l`,
returning the capture and the remainder. -/
def hrefMatchAt (l : List Char) : Option (List Char × List Char) :=
  match l with
  | '<' :: t =>
      match (t.span (fun c => ¬ (c = ':' ∨ c = '>'))).2 with
      | ':' :: r2 =>
          (match ciPrefixDrop ['h', 'r', 'e', 'f'] r2 with
           | some r3 =>
               (match (r3.span (fun c => c ≠ '>')).2 with
                | '>' :: r5 =>
                    let s := r5.span (fun c => c ≠ '<')
                    if s.1 = [] then none
                    else
                      (match s.2 with
                       | '<' :: '/' :: u =>
                           (match (u.span (fun c => ¬ (c = ':' ∨ c = '>'))).2 with
                            | ':' :: v =>
                                (match ciPrefixDrop ['h', 'r', 'e', 'f'] v with
                                 | some ('>' :: rest) => some (s.1, rest)
                                 | _ => none)
                            | _ => none)
                       | _ => none)
                | _ => none)
           | none => none)
      | _ => none
  | _ => none

/-- Global scan collecting every href capture. -/
def hrefScan : Nat → List Char → List (List Char)
  | 0, _ => []
  | fuel + 1, l =>
      match hrefMatchAt l with
      | some (content, rest) => content :: hrefScan fuel rest
      | none =>
          match l with
          | [] => []
          | _ :: t => hrefScan fuel t

/-- `href.replace(/^https?:\/\/[^\/]+/, "")` (case-sensitive, host must be
non-empty). -/
def stripOrigin (s : List Char) : List Char :=
  let strip (pre : List Char) : Option (List Char) :=
    if pre.isPrefixOf s then
      let sp := (s.drop pre.length).span (fun c => c ≠ '/')
      if sp.1 = [] then none else some sp.2
    else none
  match strip "https://".data with
  | some r => r
  | none =>
      match strip "http://".data with
      | some r => r
      | none => s

/-- `parseMultigetHrefs`: every href capture, trimmed, dropping empty and
`mailto:` values, with any absolute-URL origin stripped. -/
def parseMultigetHrefs (body : String) : List String :=
  (hrefScan body.data.length body.data).foldl
    (fun acc content =>
      let href := trimAscii content
      if href ≠ [] ∧ ¬ "mailto:".data.isPrefixOf href then
        acc ++ [String.mk (stripOrigin href)]
      else acc) []

/-- Decimal value of a digit string (`Number` on the capture of `(\d+)`). -/
def digitsVal (l : List Char) : Nat :=
  l.foldl (fun a c => 10 * a + (c.toNat - 48)) 0

/-- The `/event-(\d+)\.ics$/` extraction: the href must end in `.ics`, preceded
by a non-empty digit run, preceded by the literal `event-`. -/
def extractEventId (href : String) : Option Nat :=
  let r := href.data.reverse
  if (".ics".data.reverse).isPrefixOf r then
    let r2 := r.drop 4
    let ds := r2.takeWhile Char.isDigit
    if ds = [] then none
    else if ("event-".data.reverse).isPrefixOf (r2.drop ds.length) then
      some (digitsVal ds.reverse)
    else none
  else none

/-- One propstat block of a multistatus response: its HTTP status and the
local names of the property elements it emits. -/
structure Propstat where
  status : Nat
  props : List String
  deriving Repr, DecidableEq

/-- One `<response>` of a multistatus: its href, its propstat blocks, and
whether it is a bare top-level 404 response (no propstat at all). -/
structure DavResponse where
  href : String
  propstats : List Propstat
  notFound : Bool
  deriving Repr, DecidableEq

/-- All property names inside propstat blocks carrying the given status. -/
def propsWithStatus (r : DavResponse) (s : Nat) : List String :=
  ((r.propstats.filter (fun ps => ps.status == s)).map Propstat.props).flatten

/-- The propstat blocks both REPORT branches emit for a found event: a 200
block with `getetag` (whenever requested, or whenever `calendar-data` is
returned) and `calendar-data` (whenever requested), plus a 404 block for the
recognized-but-unsupported properties. -/
def reportPropstats (p : ReportParse) : List Propstat :=
  let includeCalendarData := "calendar-data" ∈ p.requested
  let includeGetetag := "getetag" ∈ p.requested ∨ includeCalendarData
  let props200 :=
    (if includeGetetag then ["getetag"] else []) ++
    (if includeCalendarData then ["calendar-data"] else [])
  let props404 :=
    (if p.hasScheduleTag then ["schedule-tag"] else []) ++
    (if p.hasCreatedBy then ["created-by"] else []) ++
    (if p.hasUpdatedBy then ["updated-by"] else [])
  [⟨200, props200⟩] ++
    (if p.hasScheduleTag ∨ p.hasCreatedBy ∨ p.hasUpdatedBy then [⟨404, props404⟩] else [])

/-- Lookup in the multiget `eventMap` (`Map.set` in iteration order: the last
row with a given id wins). -/
def eventMapLookup (events : List Event) (eid : Nat) : Option Event :=
  events.reverse.find? (fun e => e.id == eid)

/-- One multiget `<response>`: a 200 response when the href parses to a truthy
event id present in this calendar's event map, otherwise a bare 404. -/
def multigetResponse (p : ReportParse) (events : List Event) (href : String) :
    DavResponse :=
  match extractEventId href with
  | some eid =>
      if eid ≠ 0 then
        match eventMapLookup events eid with
        | some _ => ⟨href, reportPropstats p, false⟩
        | none => ⟨href, [], true⟩
      else ⟨href, [], true⟩
  | none => ⟨href, [], true⟩

/-- One calendar-query `<response>` per event. -/
def queryResponse (p : ReportParse) (calendarId : Nat) (e : Event) : DavResponse :=
  ⟨"/caldav/calendars/" ++ jsToString10 calendarId ++ "/event-" ++
     jsToString10 e.id ++ ".ics",
   reportPropstats p, false⟩

/-- Status and responses of a handler; the free-busy branch answers 200 with a
fixed schedule-response body and no multistatus responses. -/
structure HandlerOut where
  status : Nat
  responses : List DavResponse
  deriving Repr, DecidableEq

/-- The free-busy keyword test of the REPORT branch. -/
def freebusyKeyword (bodyLower : String) : Bool :=
  jsIncludes bodyLower "free-busy-query" || jsIncludes bodyLower "freebusy"

/-- The REPORT branch of `router.all("/calendars/:id")`: free-busy keyword
check first, then multiget keyword detection, then one response per parsed
href (multiget) or per event (calendar-query). -/
def reportHandler (body : String) (calendarId : Nat) (events : List Event) :
    HandlerOut :=
  let bodyLower := strLower body
  if freebusyKeyword bodyLower then ⟨200, []⟩
  else
    let isMultiget := jsIncludes bodyLower "calendar-multiget" || jsIncludes bodyLower "multiget"
    let parsed := parseRequestedProperties body
    if isMultiget then
      ⟨207, (parseMultigetHrefs body).map (multigetResponse parsed events)⟩
    else ⟨207, events.map (queryResponse parsed calendarId)⟩

/-- The constants pushed onto `supportedProps` for the collection, in the
source's push order; the source pushes each exactly when it is requested, so
the list is the requested-filter of this order. -/
def collectionPushOrder : List String :=
  ["resourcetype", "getetag", "getctag", "displayname", "sync-token",
   "calendar-description", "supported-calendar-component-set",
   "current-user-principal", "owner", "calendar-home-set",
   "current-user-privilege-set", "supported-report-set"]

/-- `supportedProps` of the collection PROPFIND response. -/
def collectionSupportedProps (requested : List String) : List String :=
  collectionPushOrder.filter (fun p => p ∈ requested)

/-- The order in which the collection 200 propstat emits its elements. -/
def collectionEmitOrder : List String :=
  ["resourcetype", "getetag", "displayname", "sync-token",
   "current-user-principal", "owner", "calendar-description",
   "supported-calendar-component-set", "calendar-home-set",
   "current-user-privilege-set", "supported-report-set", "getctag"]

/-- Elements of the collection 200 propstat: each emit clause fires exactly
when its property is in `supportedProps`. -/
def collectionProps200 (requested : List String) : List String :=
  collectionEmitOrder.filter (fun p => p ∈ collectionSupportedProps requested)

/-- `unsupportedProps` of the collection response: `getcontenttype` is moved
here up front, then every remaining requested property not already placed. -/
def collectionUnsupportedProps (requested : List String) : List String :=
  requested.foldl
    (fun acc p =>
      if p ∈ collectionSupportedProps requested ∨ p ∈ acc then acc else acc ++ [p])
    (if "getcontenttype" ∈ requested then ["getcontenttype"] else [])

/-- The collection `<response>`: a 200 propstat when some property is
supported, a 404 propstat when some property is unsupported. -/
def collectionResponse (requested : List String) (calendarId : Nat) : DavResponse :=
  let sup := collectionSupportedProps requested
  let unsup := collectionUnsupportedProps requested
  ⟨"/caldav/calendars/" ++ jsToString10 calendarId ++ "/",
   (if sup ≠ [] then [⟨200, collectionProps200 requested⟩] else []) ++
     (if unsup ≠ [] then [⟨404, unsup⟩] else []),
   false⟩

/-- `eventSupportedProps` of a Depth-1 event response (also its 200 emission
order). -/
def eventSupportedProps (requested : List String) : List String :=
  (if "getetag" ∈ requested then ["getetag"] else []) ++
    (if "getcontenttype" ∈ requested then ["getcontenttype"] else [])

/-- The collection-only property names the Depth-1 event branch filters out of
its 404 list. -/
def eventExcludedProps : List String :=
  ["resourcetype", "displayname", "sync-token", "calendar-description",
   "supported-calendar-component-set", "getctag", "current-user-principal",
   "owner", "calendar-home-set"]

/-- `eventUnsupportedProps`: requested properties that are neither supported
on events nor in the excluded collection-only list. -/
def eventUnsupportedProps (requested : List String) : List String :=
  requested.foldl
    (fun acc p =>
      if p ∈ eventSupportedProps requested ∨ p ∈ eventExcludedProps ∨ p ∈ acc then acc
      else acc ++ [p])
    []

/-- One Depth-1 event `<response>` of the collection PROPFIND. -/
def eventResponse (requested : List String) (calendarId : Nat) (e : Event) :
    DavResponse :=
  let sup := eventSupportedProps requested
  let unsup := eventUnsupportedProps requested
  ⟨"/caldav/calendars/" ++ jsToString10 calendarId ++ "/event-" ++
     jsToString10 e.id ++ ".ics",
   (if sup ≠ [] then [⟨200, sup⟩] else []) ++
     (if unsup ≠ [] then [⟨404, unsup⟩] else []),
   false⟩

/-- The PROPFIND branch of `router.all("/calendars/:id")`: parse the requested
set, defaulting to `resourcetype` when empty, emit the collection response and
— at Depth 1 — one response per event; always a 207 multistatus. -/
def propfindCalendarHandler (body depth : String) (calendarId : Nat)
    (events : List Event) : HandlerOut :=
  let parsed := parsePropfindProperties body
  let requested := if parsed = [] then ["resourcetype"] else parsed
  ⟨207,
   collectionResponse requested calendarId ::
     (if depth = "1" then events.map (eventResponse requested calendarId) else [])⟩

/-- Result of `router.get("/calendars/:id/event-:eventId.ics")`.  The 200 body
and `ETag` header are the pure functions `generateEventICS`/`generateEventETag`
of the returned row, so the row determines the response. -/
inductive EventGetResult where
  | notFound
  | ok (event : Event)
  deriving Repr, DecidableEq

/-- The event GET route: 404 unless the event exists and belongs to the
authenticated calendar. -/
def eventIcsRoute (st : Storage) (cal : Calendar) (eventId : Nat) : EventGetResult :=
  match getEvent st eventId with
  | none => .notFound
  | some e => if e.calendarId ≠ cal.id then .notFound else .ok e

/-- Value of a digit character (inverse of `digitCharJs` below 16). -/
def digitValJs (c : Char) : Nat :=
  if c = '0' then 0 else if c = '1' then 1 else if c = '2' then 2
  else if c = '3' then 3 else if c = '4' then 4 else if c = '5' then 5
  else if c = '6' then 6 else if c = '7' then 7 else if c = '8' then 8
  else if c = '9' then 9 else if c = 'a' then 10 else if c = 'b' then 11
  else if c = 'c' then 12 else if c = 'd' then 13 else if c = 'e' then 14
  else 15

/-- Value of a most-significant-first digit string in base `b`. -/
def baseVal (b : Nat) (l : List Char) : Nat :=
  l.foldl (fun a c => b * a + digitValJs c) 0

/-- Per-character effect of the `escapeICS` replace chain. -/
def escCharICS (c : Char) : List Char :=
  if c = '\\' then ['\\', '\\']
  else if c = ',' then ['\\', ',']
  else if c = ';' then ['\\', ';']
  else if c = '\n' then ['\\', 'n']
  else if c = '\r' then []
  else [c]

/-- Flattened per-character form of the escape pipeline. -/
def escFlatICS (l : List Char) : List Char :=
  l.foldr (fun c acc => escCharICS c ++ acc) []

theorem digitValJs_digitCharJs {d : Nat} (h : d < 16) :
    digitValJs (digitCharJs d) = d := by
  interval_cases d <;> decide

theorem baseVal_append_digit (b : Nat) (l : List Char) (c : Char) :
    baseVal b (l ++ [c]) = b * baseVal b l + digitValJs c := by
  simp [baseVal, List.foldl_append]

theorem baseVal_toBaseDigits {b : Nat} (hb : 2 ≤ b) (hb16 : b ≤ 16) :
    ∀ fuel n, n ≤ fuel → baseVal b (toBaseDigits b fuel n) = n := by
  intro fuel
  induction fuel with
  | zero =>
      intro n hn
      interval_cases n
      simp [toBaseDigits, baseVal]
  | succ f ih =>
      intro n hn
      cases n with
      | zero => simp [toBaseDigits, baseVal]
      | succ m =>
          have hdiv : (m + 1) / b < m + 1 :=
            Nat.div_lt_self (Nat.succ_pos m) (by omega)
          have hle : (m + 1) / b ≤ f := by omega
          have hmod : (m + 1) % b < b := Nat.mod_lt _ (by omega)
          calc baseVal b (toBaseDigits b (f + 1) (m + 1))
              = baseVal b (toBaseDigits b f ((m + 1) / b) ++ [digitCharJs ((m + 1) % b)]) := by
                rfl
            _ = b * baseVal b (toBaseDigits b f ((m + 1) / b)) + digitValJs (digitCharJs ((m + 1) % b)) :=
                baseVal_append_digit ..
            _ = b * ((m + 1) / b) + (m + 1) % b := by
                rw [ih _ hle, digitValJs_digitCharJs (by omega : (m + 1) % b < 16)]

            _ = m + 1 := Nat.div_add_mod (m + 1) b

theorem jsToString16_inj {m n : Nat} (h : jsToString16 m = jsToString16 n) : m = n := by
  have hdata : (jsToString16 m).data = (jsToString16 n).data := by rw [h]
  by_cases hm : m = 0 <;> by_cases hn : n = 0 <;>
    simp [jsToString16, hm, hn] at hdata ⊢
  · have := congrArg (baseVal 16) hdata
    rw [baseVal_toBaseDigits (by norm_num) (by norm_num) n n le_rfl] at this
    simp [baseVal, digitValJs] at this
    omega
  · have := congrArg (baseVal 16) hdata
    rw [baseVal_toBaseDigits (by norm_num) (by norm_num) m m le_rfl] at this
    simp [baseVal, digitValJs] at this
    omega
  · have := congrArg (baseVal 16) hdata
    rwa [baseVal_toBaseDigits (by norm_num) (by norm_num) m m le_rfl,
         baseVal_toBaseDigits (by norm_num) (by norm_num) n n le_rfl] at this

theorem jsToString10_inj {m n : Nat} (h : jsToString10 m = jsToString10 n) : m = n := by
  have hdata : (jsToString10 m).data = (jsToString10 n).data := by rw [h]
  by_cases hm : m = 0 <;> by_cases hn : n = 0 <;>
    simp [jsToString10, hm, hn] at hdata ⊢
  · have := congrArg (baseVal 10) hdata
    rw [baseVal_toBaseDigits (by norm_num) (by norm_num) n n le_rfl] at this
    simp [baseVal, digitValJs] at this
    omega
  · have := congrArg (baseVal 10) hdata
    rw [baseVal_toBaseDigits (by norm_num) (by norm_num) m m le_rfl] at this
    simp [baseVal, digitValJs] at this
    omega
  · have := congrArg (baseVal 10) hdata
    rwa [baseVal_toBaseDigits (by norm_num) (by norm_num) m m le_rfl,
         baseVal_toBaseDigits (by norm_num) (by norm_num) n n le_rfl] at this

theorem mem_toBaseDigits_isDigitChar {b : Nat} (hb2 : 2 ≤ b) (hb : b ≤ 16) :
    ∀ fuel n c, c ∈ toBaseDigits b fuel n → ∃ d, d < 16 ∧ c = digitCharJs d := by
  intro fuel
  induction fuel with
  | zero => intro n c hc; simp [toBaseDigits] at hc
  | succ f ih =>
      intro n c hc
      cases n with
      | zero => simp [toBaseDigits] at hc
      | succ m =>
          rw [show toBaseDigits b (f + 1) (m + 1)
                = toBaseDigits b f ((m + 1) / b) ++ [digitCharJs ((m + 1) % b)] from rfl,
              List.mem_append] at hc
          rcases hc with hc | hc
          · exact ih _ _ hc
          · simp at hc
            have hmod : (m + 1) % b < b := Nat.mod_lt _ (by omega)
            exact ⟨(m + 1) % b, by omega, hc⟩

theorem dash_not_mem_jsToString10 (n : Nat) : '-' ∉ (jsToString10 n).data := by
  by_cases hn : n = 0
  · simp [jsToString10, hn]
  · simp [jsToString10, hn]
    intro hc
    obtain ⟨d, hd, hcd⟩ := mem_toBaseDigits_isDigitChar (by norm_num) (by norm_num) n n '-' hc
    revert hcd
    interval_cases d <;> decide

theorem append_dash_inj :
    ∀ (a b t u : List Char), '-' ∉ a → '-' ∉ b →
      a ++ '-' :: t = b ++ '-' :: u → a = b ∧ t = u := by
  intro a
  induction a with
  | nil =>
      intro b t u _ hb h
      cases b with
      | nil => simpa using h
      | cons d b' =>
          simp at h
          exact absurd (h.1 ▸ List.mem_cons_self d b') (h.1 ▸ hb)
  | cons c a' ih =>
      intro b t u ha hb h
      cases b with
      | nil =>
          simp at h
          exact absurd (h.1 ▸ List.mem_cons_self c a') (h.1 ▸ ha)
      | cons d b' =>
          simp at h
          obtain ⟨rfl, h2⟩ := h
          have := ih b' t u (fun hm => ha (List.mem_cons_of_mem _ hm))
            (fun hm => hb (List.mem_cons_of_mem _ hm)) h2
          exact ⟨by rw [this.1], this.2⟩

theorem string_mk_data (s : String) : String.mk s.data = s := rfl

theorem string_eq_of_data {s t : String} (h : s.data = t.data) : s = t := by
  cases s; cases t; exact congrArg String.mk h

theorem eventETag_body_inj {i1 i2 t1 t2 : Nat}
    (h : "\"event-" ++ jsToString10 i1 ++ "-" ++ jsToString16 t1 ++ "\"" =
         "\"event-" ++ jsToString10 i2 ++ "-" ++ jsToString16 t2 ++ "\"") :
    i1 = i2 := by
  have hd := congrArg String.data h
  simp only [String.data_append] at hd
  simp only [List.append_assoc, List.cons_append, List.nil_append,
    List.cons.injEq, true_and] at hd
  have hsplit :=
    append_dash_inj (jsToString10 i1).data (jsToString10 i2).data
      ((jsToString16 t1).data ++ ['"']) ((jsToString16 t2).data ++ ['"'])
      (dash_not_mem_jsToString10 i1) (dash_not_mem_jsToString10 i2) hd
  exact jsToString10_inj (congrArg String.mk hsplit.1)

theorem quoted16_inj {a b : Nat}
    (h : "\"" ++ jsToString16 a ++ "\"" = "\"" ++ jsToString16 b ++ "\"") : a = b := by
  have hd := congrArg String.data h
  simp only [String.data_append] at hd
  simp only [List.append_assoc, List.cons_append, List.nil_append,
    List.cons.injEq, true_and] at hd
  have := List.append_cancel_right hd
  exact jsToString16_inj (congrArg String.mk this)

/-- Claim C5: for every event whose `updatedAt` is present, the event ETag is
the quoted string `event-<id>-<hex updatedAt>`, and two events with distinct
ids have distinct ETags even when updated in the same millisecond. -/
theorem generateEventETag_format_and_distinct :
    ∀ (e1 e2 : Event) (t1 t2 now1 now2 : Nat),
      e1.updatedAt = some t1 → e2.updatedAt = some t2 →
      (generateEventETag e1 now1 =
        "\"event-" ++ jsToString10 e1.id ++ "-" ++ jsToString16 t1 ++ "\"") ∧
      (e1.id ≠ e2.id → generateEventETag e1 now1 ≠ generateEventETag e2 now2) := by
  intro e1 e2 t1 t2 now1 now2 h1 h2
  constructor
  · simp [generateEventETag, h1]
  · intro hne heq
    rw [show generateEventETag e1 now1 =
          "\"event-" ++ jsToString10 e1.id ++ "-" ++ jsToString16 t1 ++ "\"" by
            simp [generateEventETag, h1],
        show generateEventETag e2 now2 =
          "\"event-" ++ jsToString10 e2.id ++ "-" ++ jsToString16 t2 ++ "\"" by
            simp [generateEventETag, h2]] at heq
    exact hne (eventETag_body_inj heq)

/-- Witness for C5 at two concrete events sharing an `updatedAt` instant. -/
theorem generateEventETag_format_and_distinct_witness :
    (generateEventETag ⟨1, 1, "a", none, none, 0, 1, none, some 9000⟩ 7 =
      "\"event-" ++ jsToString10 1 ++ "-" ++ jsToString16 9000 ++ "\"") ∧
    generateEventETag ⟨1, 1, "a", none, none, 0, 1, none, some 9000⟩ 7 ≠
      generateEventETag ⟨2, 1, "b", none, none, 0, 1, none, some 9000⟩ 7 :=
  ⟨(generateEventETag_format_and_distinct
      ⟨1, 1, "a", none, none, 0, 1, none, some 9000⟩
      ⟨2, 1, "b", none, none, 0, 1, none, some 9000⟩ 9000 9000 7 7 rfl rfl).1,
   (generateEventETag_format_and_distinct
      ⟨1, 1, "a", none, none, 0, 1, none, some 9000⟩
      ⟨2, 1, "b", none, none, 0, 1, none, some 9000⟩ 9000 9000 7 7 rfl rfl).2
     (by decide)⟩

/-- Counterexample to claim C6 as stated: the `ETag` header of
`GET /calendars/:id` is computed by the legacy `generateEtag`, which returns
exactly the CTag, so for this concrete calendar the two tokens coincide. -/
theorem generateEtag_equals_generateCTag_concrete :
    generateEtag ⟨1, "Team", none, some 1704067200000, some 1735689600000⟩ [] 0 =
      generateCTag ⟨1, "Team", none, some 1704067200000, some 1735689600000⟩ 0 := rfl

/-- Claim C6 amended: the PROPFIND collection `getetag`
(`generateCollectionETag`) differs from the CTag exactly unless the hex
rendering of `updatedAt` is the character `c` followed by the hex rendering of
`createdAt`; the `ETag` header of `GET /calendars/:id` (legacy `generateEtag`)
always equals the CTag. -/
theorem collectionETag_vs_ctag :
    ∀ (c : Calendar) (events : List Event) (now tC tU : Nat),
      c.createdAt = some tC → c.updatedAt = some tU →
      (generateEtag c events now = generateCTag c now) ∧
      (generateCollectionETag c now = generateCTag c now ↔
        jsToString16 tU = "c" ++ jsToString16 tC) := by
  intro c events now tC tU hC hU
  refine ⟨rfl, ?_, ?_⟩
  · intro h
    have hd := congrArg String.data h
    simp only [generateCollectionETag, generateCTag, hC, hU, String.data_append] at hd
    simp only [List.append_assoc, List.cons_append, List.nil_append,
      List.cons.injEq, true_and] at hd
    have hshape : ('c' :: (jsToString16 tC).data) ++ ['"'] = (jsToString16 tU).data ++ ['"'] := by
      simpa using hd
    have hlist := List.append_cancel_right hshape
    apply string_eq_of_data
    simp only [String.data_append, ← hlist]
    rfl
  · intro h
    apply string_eq_of_data
    simp only [generateCollectionETag, generateCTag, hC, hU, h, String.data_append]
    simp [List.append_assoc]

/-- Witness for the amended C6 with concrete, realistic timestamps: the legacy
GET ETag equals the CTag, and the collection ETag differs from it. -/
theorem collectionETag_vs_ctag_witness :
    (generateEtag ⟨2, "W", none, some 1700000000000, some 1700000000005⟩ [] 5 =
      generateCTag ⟨2, "W", none, some 1700000000000, some 1700000000005⟩ 5) ∧
    generateCollectionETag ⟨2, "W", none, some 1700000000000, some 1700000000005⟩ 5 ≠
      generateCTag ⟨2, "W", none, some 1700000000000, some 1700000000005⟩ 5 := by
  have h := collectionETag_vs_ctag ⟨2, "W", none, some 1700000000000, some 1700000000005⟩
    [] 5 1700000000000 1700000000005 rfl rfl
  refine ⟨h.1, fun he => ?_⟩
  have := h.2.mp he
  revert this
  decide

theorem find?_map_preserve {α : Type} (f : α → α) (p : α → Bool) (l : List α)
    (hp : ∀ a, p (f a) = p a) (hf : ∀ a, p a = true → f a = a) :
    (l.map f).find? p = l.find? p := by
  induction l with
  | nil => rfl
  | cons a rest ih =>
      simp only [List.map_cons, List.find?]
      rw [hp a]
      cases hpa : p a
      · simpa using ih
      · simp [hf a hpa]

theorem find?_map_comm {α : Type} (f : α → α) (p : α → Bool) (l : List α)
    (hp : ∀ a, p (f a) = p a) :
    (l.map f).find? p = (l.find? p).map f := by
  induction l with
  | nil => rfl
  | cons a rest ih =>
      simp only [List.map_cons, List.find?]
      rw [hp a]
      cases hpa : p a
      · simpa using ih
      · simp

theorem getCalendar_bump_ne (cals : List Calendar) (cid tgt now : Nat) (h : tgt ≠ cid) :
    (bumpCalendar cals tgt now).find? (fun c => c.id == cid) =
      cals.find? (fun c => c.id == cid) := by
  apply find?_map_preserve
  · intro a
    by_cases ha : a.id = tgt <;> simp [ha]
  · intro a hpa
    have hac : a.id = cid := by simpa using hpa
    have hat : a.id ≠ tgt := by omega
    simp [hat]

theorem getCalendar_bump_eq (cals : List Calendar) (cid now : Nat) :
    (bumpCalendar cals cid now).find? (fun c => c.id == cid) =
      (cals.find? (fun c => c.id == cid)).map
        (fun c => if c.id = cid then { c with updatedAt := some now } else c) := by
  apply find?_map_comm
  intro a
  by_cases ha : a.id = cid <;> simp [ha]

/-- CTag difference under an `updatedAt` bump to a different instant. -/
theorem ctag_changes_of_bump {c : Calendar} {tU now : Nat}
    (hU : c.updatedAt = some tU) (hne : now ≠ tU) :
    ∀ m m' : Nat, generateCTag { c with updatedAt := some now } m ≠ generateCTag c m' := by
  intro m m' h
  simp only [generateCTag, hU] at h
  exact hne (quoted16_inj h)

/-- Claim C4 amended: the CTag of a calendar is unchanged by
create/update/delete of events whose (resulting) parent is a different
calendar; an operation under this calendar sets its `updatedAt` to the
operation instant, so the CTag changes provided that instant differs from the
previous `updatedAt`. -/
theorem ctag_frame_and_change :
    ∀ (st : Storage) (cid now : Nat),
      (∀ e : Event, e.calendarId ≠ cid →
        getCalendar (createEvent st e now) cid = getCalendar st cid) ∧
      (∀ (id : Nat) (u : EventUpdates) (st' : Storage) (e0 : Event),
        st.events.find? (fun e => e.id == id) = some e0 →
        updateEvent st id u now = some st' →
        (applyUpdates u e0 now).calendarId ≠ cid →
        getCalendar st' cid = getCalendar st cid) ∧
      (∀ id : Nat,
        (∀ e0 : Event, getEvent st id = some e0 → e0.calendarId ≠ cid) →
        getCalendar (deleteEvent st id now) cid = getCalendar st cid) ∧
      (∀ (c : Calendar) (tU : Nat),
        getCalendar st cid = some c → c.updatedAt = some tU → now ≠ tU →
        (∀ m m' : Nat, generateCTag { c with updatedAt := some now } m ≠ generateCTag c m') ∧
        (∀ e : Event, e.calendarId = cid →
          getCalendar (createEvent st e now) cid = some { c with updatedAt := some now }) ∧
        (∀ (id : Nat) (u : EventUpdates) (st' : Storage) (e0 : Event),
          st.events.find? (fun e => e.id == id) = some e0 →
          updateEvent st id u now = some st' →
          (applyUpdates u e0 now).calendarId = cid →
          getCalendar st' cid = some { c with updatedAt := some now }) ∧
        (∀ (id : Nat) (e0 : Event),
          getEvent st id = some e0 → e0.calendarId = cid →
          getCalendar (deleteEvent st id now) cid = some { c with updatedAt := some now })) := by
  intro st cid now
  refine ⟨?_, ?_, ?_, ?_⟩
  · intro e he
    simp only [createEvent, getCalendar]
    exact getCalendar_bump_ne st.calendars cid e.calendarId now he
  · intro id u st' e0 hfind hupd hne
    simp only [updateEvent, hfind] at hupd
    cases hupd
    simp only [getCalendar]
    exact getCalendar_bump_ne st.calendars cid _ now hne
  · intro id hall
    cases hget : getEvent st id with
    | none => simp only [deleteEvent, hget, getCalendar]
    | some e0 =>
        simp only [deleteEvent, hget, getCalendar]
        exact getCalendar_bump_ne st.calendars cid e0.calendarId now (hall e0 hget)
  · intro c tU hc hU hne
    have hcid : c.id = cid := by
      have := List.find?_some hc
      simpa using this
    have hbump :
        ∀ cals : List Calendar, cals.find? (fun x => x.id == cid) = some c →
          (bumpCalendar cals cid now).find? (fun x => x.id == cid) =
            some { c with updatedAt := some now } := by
      intro cals hcals
      rw [getCalendar_bump_eq, hcals]
      simp [hcid]
    refine ⟨ctag_changes_of_bump hU hne, ?_, ?_, ?_⟩
    · intro e he
      simp only [createEvent, getCalendar, he]
      exact hbump st.calendars hc
    · intro id u st' e0 hfind hupd hpar
      simp only [updateEvent, hfind] at hupd
      cases hupd
      simp only [getCalendar, hpar]
      exact hbump st.calendars hc
    · intro id e0 hget hpar
      simp only [deleteEvent, hget, getCalendar, hpar]
      exact hbump st.calendars hc

/-- Counterexample to claim C4 as stated: creating an event under the calendar
in the same millisecond as the calendar's current `updatedAt` leaves the CTag
unchanged, although the claim asserts it changes after any `createEvent`. -/
theorem ctag_same_millisecond_unchanged :
    (⟨1, 1, "E", none, none, 0, 10, none, none⟩ : Event).calendarId = 1 ∧
    (getCalendar (createEvent ⟨[⟨1, "Cal", none, some 100, some 500⟩], [], []⟩
        ⟨1, 1, "E", none, none, 0, 10, none, none⟩ 500) 1).map
        (fun c => generateCTag c 0) =
      (getCalendar ⟨[⟨1, "Cal", none, some 100, some 500⟩], [], []⟩ 1).map
        (fun c => generateCTag c 0) := by
  exact ⟨rfl, by decide⟩

/-- Witness for the amended C4 at a concrete state: a foreign create leaves the
row untouched, and a same-calendar create at a fresh instant changes the
CTag. -/
theorem ctag_frame_and_change_witness :
    (getCalendar (createEvent ⟨[⟨1, "Cal", none, some 100, some 500⟩], [], []⟩
        ⟨7, 2, "F", none, none, 0, 10, none, none⟩ 900) 1 =
      getCalendar ⟨[⟨1, "Cal", none, some 100, some 500⟩], [], []⟩ 1) ∧
    (∀ m m' : Nat,
      generateCTag { (⟨1, "Cal", none, some 100, some 500⟩ : Calendar) with
          updatedAt := some 900 } m ≠
        generateCTag ⟨1, "Cal", none, some 100, some 500⟩ m') := by
  have h := ctag_frame_and_change ⟨[⟨1, "Cal", none, some 100, some 500⟩], [], []⟩ 1 900
  exact ⟨h.1 ⟨7, 2, "F", none, none, 0, 10, none, none⟩ (by decide),
    (h.2.2.2 ⟨1, "Cal", none, some 100, some 500⟩ 500 (by decide) rfl (by decide)).1⟩

/-- Claim C1 amended: when the credential record is resolved by the numeric
calendar id in the path (username lookup empty), `caldavAuth` succeeds exactly
when the supplied password equals the stored password; the username-equality
check is skipped whenever the path carries an id parameter, so a wrong
username with the correct password is accepted. -/
theorem caldavAuth_pathid_password_only :
    ∀ (st : Storage) (a : BasicAuth) (idStr : String) (cid : Nat) (share : CaldavShare),
      getCaldavShareByUsername st a.username = none →
      idStr ≠ "" →
      jsNumberNat idStr = some cid →
      getCaldavShare st cid = some share →
      (caldavAuth st (some a) (some idStr) = .ok share ↔ share.password = a.password) := by
  intro st a idStr cid share hbyU hne hnum hshare
  have htruthy : paramTruthy (some idStr) = true := by
    simp [paramTruthy, hne]
  simp only [caldavAuth, hbyU, htruthy, hnum, hshare, if_true]
  by_cases hpw : share.password = a.password
  · simp [hpw]
  · simp [hpw]

/-- Counterexample to claim C1 as stated: with the lone credential record
`(username "u", password "p")` for calendar 1, a request for path id `1`
carrying the correct password but the wrong username `"wrong"` is accepted,
not rejected with 401. -/
theorem caldavAuth_wrong_username_accepted :
    caldavAuth ⟨[], [], [⟨1, 1, "u", "p"⟩]⟩ (some ⟨"wrong", "p"⟩) (some "1") =
      .ok ⟨1, 1, "u", "p"⟩ ∧ ("wrong" : String) ≠ "u" := by
  exact ⟨by decide, by decide⟩

/-- Witness for the amended C1 at the same concrete store. -/
theorem caldavAuth_pathid_password_only_witness :
    caldavAuth ⟨[], [], [⟨1, 1, "u", "p"⟩]⟩ (some ⟨"other", "p"⟩) (some "1") =
      .ok ⟨1, 1, "u", "p"⟩ :=
  (caldavAuth_pathid_password_only ⟨[], [], [⟨1, 1, "u", "p"⟩]⟩ ⟨"other", "p"⟩ "1" 1
      ⟨1, 1, "u", "p"⟩ (by decide) (by decide) (by decide) (by decide)).mpr rfl

theorem replaceChar_append (c : Char) (r l1 l2 : List Char) :
    replaceChar c r (l1 ++ l2) = replaceChar c r l1 ++ replaceChar c r l2 := by
  induction l1 with
  | nil => rfl
  | cons x xs ih => simp [replaceChar, ih]

theorem escPipeline_eq_flat (l : List Char) :
    replaceChar '\r' []
      (replaceChar '\n' ['\\', 'n']
        (replaceChar ';' ['\\', ';']
          (replaceChar ',' ['\\', ',']
            (replaceChar '\\' ['\\', '\\'] l)))) = escFlatICS l := by
  induction l with
  | nil => rfl
  | cons x xs ih =>
      have hx : replaceChar '\\' ['\\', '\\'] (x :: xs)
          = replaceChar '\\' ['\\', '\\'] [x] ++ replaceChar '\\' ['\\', '\\'] xs := by
        simpa using replaceChar_append '\\' ['\\', '\\'] [x] xs
      rw [hx, replaceChar_append, replaceChar_append, replaceChar_append,
          replaceChar_append, ih]
      have hstep :
          replaceChar '\r' []
            (replaceChar '\n' ['\\', 'n']
              (replaceChar ';' ['\\', ';']
                (replaceChar ',' ['\\', ',']
                  (replaceChar '\\' ['\\', '\\'] [x])))) = escCharICS x := by
        by_cases h1 : x = '\\'
        · simp [h1, replaceChar, escCharICS]
        · by_cases h2 : x = ','
          · simp [h2, replaceChar, escCharICS]
          · by_cases h3 : x = ';'
            · simp [h3, replaceChar, escCharICS]
            · by_cases h4 : x = '\n'
              · simp [h4, replaceChar, escCharICS]
              · by_cases h5 : x = '\r'
                · simp [h5, replaceChar, escCharICS]
                · simp [replaceChar, escCharICS, h1, h2, h3, h4, h5]
      rw [hstep]
      rfl

theorem unescapeICS_cons_of_ne (x : Char) (r : List Char) (hx : x ≠ '\\') :
    unescapeICS (x :: r) = x :: unescapeICS r := by
  cases r with
  | nil => rfl
  | cons d rest => simp [unescapeICS, hx]

theorem unescapeICS_escFlat (l : List Char) (h : '\r' ∉ l) :
    unescapeICS (escFlatICS l) = l := by
  induction l with
  | nil => rfl
  | cons x xs ih =>
      have hxs : '\r' ∉ xs := fun hm => h (List.mem_cons_of_mem _ hm)
      have hflat : escFlatICS (x :: xs) = escCharICS x ++ escFlatICS xs := rfl
      rw [hflat]
      by_cases h1 : x = '\\'
      · simp only [escCharICS, h1, if_pos rfl]
        show unescapeICS ('\\' :: '\\' :: escFlatICS xs) = '\\' :: xs
        rw [show unescapeICS ('\\' :: '\\' :: escFlatICS xs)
              = '\\' :: unescapeICS (escFlatICS xs) by simp [unescapeICS], ih hxs]
      · by_cases h2 : x = ','
        · simp only [escCharICS, h2, if_neg (by decide : ¬(',' : Char) = '\\'), if_pos rfl]
          show unescapeICS ('\\' :: ',' :: escFlatICS xs) = ',' :: xs
          rw [show unescapeICS ('\\' :: ',' :: escFlatICS xs)
                = ',' :: unescapeICS (escFlatICS xs) by simp [unescapeICS], ih hxs]
        · by_cases h3 : x = ';'
          · simp only [escCharICS, h3, if_neg (by decide : ¬(';' : Char) = '\\'),
              if_neg (by decide : ¬(';' : Char) = ','), if_pos rfl]
            show unescapeICS ('\\' :: ';' :: escFlatICS xs) = ';' :: xs
            rw [show unescapeICS ('\\' :: ';' :: escFlatICS xs)
                  = ';' :: unescapeICS (escFlatICS xs) by simp [unescapeICS], ih hxs]
          · by_cases h4 : x = '\n'
            · simp only [escCharICS, h4, if_neg (by decide : ¬('\n' : Char) = '\\'),
                if_neg (by decide : ¬('\n' : Char) = ','),
                if_neg (by decide : ¬('\n' : Char) = ';'), if_pos rfl]
              show unescapeICS ('\\' :: 'n' :: escFlatICS xs) = '\n' :: xs
              rw [show unescapeICS ('\\' :: 'n' :: escFlatICS xs)
                    = '\n' :: unescapeICS (escFlatICS xs) by simp [unescapeICS], ih hxs]
            · have h5 : x ≠ '\r' := fun hr => h (hr ▸ List.mem_cons_self x xs)
              simp only [escCharICS, if_neg h1, if_neg h2, if_neg h3, if_neg h4, if_neg h5]
              show unescapeICS (x :: escFlatICS xs) = x :: xs
              rw [unescapeICS_cons_of_ne x _ h1, ih hxs]

/-- Claim C9: `escapeICS` round-trips with the RFC 5545 unescape on every
string without a bare carriage return, and is therefore injective on that
alphabet. -/
theorem escapeICS_roundtrip_and_inj :
    ∀ s t : String, '\r' ∉ s.data → '\r' ∉ t.data →
      String.mk (unescapeICS (escapeICS s).data) = s ∧
      (escapeICS s = escapeICS t → s = t) := by
  have round : ∀ s : String, '\r' ∉ s.data →
      String.mk (unescapeICS (escapeICS s).data) = s := by
    intro s hs
    by_cases hempty : s = ""
    · subst hempty; rfl
    · have hdata : (escapeICS s).data = escFlatICS s.data := by
        simp only [escapeICS, if_neg hempty]
        exact escPipeline_eq_flat s.data
      rw [hdata, unescapeICS_escFlat s.data hs]
  intro s t hs ht
  refine ⟨round s hs, fun h => ?_⟩
  have := round s hs
  rw [h, round t ht] at this
  exact this.symm

/-- Witness for C9 on a string containing commas, semicolons, backslashes and
a newline. -/
theorem escapeICS_roundtrip_and_inj_witness :
    String.mk (unescapeICS (escapeICS "a,b;c\\d\ne").data) = "a,b;c\\d\ne" ∧
    (escapeICS "a,b;c\\d\ne" = escapeICS "plain" → ("a,b;c\\d\ne" : String) = "plain") :=
  escapeICS_roundtrip_and_inj "a,b;c\\d\ne" "plain" (by decide) (by decide)

theorem find?_append_some {α : Type} (p : α → Bool) (l1 l2 : List α) (a : α)
    (h : l1.find? p = some a) : (l1 ++ l2).find? p = some a := by
  induction l1 with
  | nil => simp [List.find?] at h
  | cons x xs ih =>
      simp only [List.find?, List.cons_append] at h ⊢
      cases hx : p x
      · rw [hx] at h; simpa using ih h
      · rw [hx] at h; simpa using h

theorem find?_append_none {α : Type} (p : α → Bool) (l1 l2 : List α)
    (h : l1.find? p = none) : (l1 ++ l2).find? p = l2.find? p := by
  induction l1 with
  | nil => rfl
  | cons x xs ih =>
      simp only [List.find?, List.cons_append] at h ⊢
      cases hx : p x
      · rw [hx] at h; simpa using ih h
      · rw [hx] at h; simp at h

theorem filter_map_eq {α : Type} (f : α → α) (p : α → Bool) :
    ∀ l : List α,
      (∀ a ∈ l, f a = a ∨ (p a = false ∧ p (f a) = false)) →
      (l.map f).filter p = l.filter p := by
  intro l
  induction l with
  | nil => intro _; rfl
  | cons x xs ih =>
      intro h
      have hx := h x (List.mem_cons_self x xs)
      have hxs := fun a ha => h a (List.mem_cons_of_mem _ ha)
      simp only [List.map_cons, List.filter_cons]
      rcases hx with hx | ⟨hp, hpf⟩
      · rw [hx, ih hxs]
      · simp [hp, hpf, ih hxs]

theorem filter_filter_of {α : Type} (p r : α → Bool) :
    ∀ l : List α, (∀ a ∈ l, p a = true → r a = true) →
      (l.filter r).filter p = l.filter p := by
  intro l
  induction l with
  | nil => intro _; rfl
  | cons x xs ih =>
      intro h
      have hxs := fun a ha => h a (List.mem_cons_of_mem _ ha)
      simp only [List.filter_cons]
      cases hp : p x
      · cases hr : r x
        · simp [ih hxs]
        · simp [List.filter_cons, hp, ih hxs]
      · have hr := h x (List.mem_cons_self x xs) hp
        rw [hr]
        simp [List.filter_cons, hp, ih hxs]

theorem find?_filter_of {α : Type} (p r : α → Bool) :
    ∀ l : List α, (∀ a, p a = true → r a = true) →
      (l.filter r).find? p = l.find? p := by
  intro l
  induction l with
  | nil => intro _; rfl
  | cons x xs ih =>
      intro h
      simp only [List.filter_cons]
      cases hr : r x
      · have hp : p x = false := by
          cases hpx : p x
          · rfl
          · rw [h x hpx] at hr; cases hr
        simp [List.find?, hp, ih h]
      · simp only [if_pos rfl, List.find?]
        cases hp : p x
        · simpa using ih h
        · rfl

/-- Claim C10: responses of the authenticated routes are functions of the
authenticated calendar's own data; a GET of an event of another calendar is
404, a multiget href naming an event of another calendar gets a bare 404, and
creating, updating or deleting events that (still) belong to another calendar
leaves this calendar's event list, calendar row, and every route response
unchanged. -/
theorem cross_calendar_noninterference :
    ∀ (st : Storage) (cal : Calendar) (now : Nat), cal.id ≠ 0 →
      (∀ (eid : Nat) (e : Event), getEvent st eid = some e → e.calendarId ≠ cal.id →
        eventIcsRoute st cal eid = .notFound) ∧
      (∀ (p : ReportParse) (href : String) (eid : Nat),
        extractEventId href = some eid →
        (∀ ev ∈ st.events, ev.id = eid → ev.calendarId ≠ cal.id) →
        (multigetResponse p (getEventsByCalendar st cal.id) href).notFound = true) ∧
      (∀ e : Event, e.calendarId ≠ cal.id →
        getEventsByCalendar (createEvent st e now) cal.id = getEventsByCalendar st cal.id ∧
        getCalendar (createEvent st e now) cal.id = getCalendar st cal.id ∧
        (∀ eid, eventIcsRoute (createEvent st e now) cal eid = eventIcsRoute st cal eid) ∧
        (∀ body,
          reportHandler body cal.id (getEventsByCalendar (createEvent st e now) cal.id) =
            reportHandler body cal.id (getEventsByCalendar st cal.id)) ∧
        (∀ body depth,
          propfindCalendarHandler body depth cal.id
              (getEventsByCalendar (createEvent st e now) cal.id) =
            propfindCalendarHandler body depth cal.id (getEventsByCalendar st cal.id))) ∧
      (∀ (id : Nat) (u : EventUpdates) (st' : Storage),
        updateEvent st id u now = some st' →
        (∀ ev ∈ st.events, ev.id = id →
          ev.calendarId ≠ cal.id ∧ (applyUpdates u ev now).calendarId ≠ cal.id) →
        getEventsByCalendar st' cal.id = getEventsByCalendar st cal.id ∧
        (∀ eid, eventIcsRoute st' cal eid = eventIcsRoute st cal eid)) ∧
      (∀ id : Nat,
        (∀ ev ∈ st.events, ev.id = id → ev.calendarId ≠ cal.id) →
        getEventsByCalendar (deleteEvent st id now) cal.id = getEventsByCalendar st cal.id ∧
        (∀ eid, eventIcsRoute (deleteEvent st id now) cal eid = eventIcsRoute st cal eid)) := by
  intro st cal now hcal
  refine ⟨?_, ?_, ?_, ?_, ?_⟩
  · -- (a) the GET route checks `event.calendarId !== calendar.id`
    intro eid e hget hne
    simp [eventIcsRoute, hget, hne]
  · -- (b) the multiget event map contains only this calendar's events
    intro p href eid hx hall
    have hnone : eventMapLookup (getEventsByCalendar st cal.id) eid = none := by
      apply List.find?_eq_none.mpr
      intro ev hev
      simp only [List.mem_reverse] at hev
      rw [getEventsByCalendar, if_pos hcal] at hev
      have hmem := List.mem_of_mem_filter hev
      have hcid : ev.calendarId = cal.id := by
        have := List.of_mem_filter hev
        simpa using this
      intro hbeq
      have : ev.id = eid := by simpa using hbeq
      exact hall ev hmem this hcid
    by_cases h0 : eid = 0
    · simp [multigetResponse, hx, h0]
    · simp [multigetResponse, hx, h0, hnone]
  · -- (c) createEvent of a foreign event
    intro e he
    have hev : getEventsByCalendar (createEvent st e now) cal.id =
        getEventsByCalendar st cal.id := by
      simp only [getEventsByCalendar, createEvent, if_pos hcal, List.filter_append]
      simp [he]
    refine ⟨hev, ?_, ?_, fun body => by rw [hev], fun body depth => by rw [hev]⟩
    · simp only [createEvent, getCalendar]
      exact getCalendar_bump_ne st.calendars cal.id e.calendarId now he
    · intro eid
      simp only [eventIcsRoute, getEvent, createEvent]
      cases hfind : st.events.find? (fun x => x.id == eid) with
      | some ev => rw [find?_append_some _ _ _ _ hfind]
      | none =>
          rw [find?_append_none _ _ _ hfind]
          simp only [List.find?]
          cases hid : ((e.id == eid) : Bool)
          · rfl
          · simp [he]
  · -- (c) updateEvent keeping the event foreign
    intro id u st' hupd hall
    cases hfind : st.events.find? (fun x => x.id == id) with
    | none => rw [updateEvent, hfind] at hupd; cases hupd
    | some e0 =>
        rw [updateEvent, hfind] at hupd
        cases hupd
        have hidpres : ∀ ev : Event,
            (if ev.id = id then applyUpdates u ev now else ev).id = ev.id := by
          intro ev
          by_cases hev : ev.id = id <;> simp [hev, applyUpdates]
        constructor
        · simp only [getEventsByCalendar, if_pos hcal]
          apply filter_map_eq
          intro ev hmem
          by_cases hev : ev.id = id
          · right
            obtain ⟨h1, h2⟩ := hall ev hmem hev
            constructor <;> simp [hev, h1, h2]
          · left; simp [hev]
        · intro eid
          simp only [eventIcsRoute, getEvent]
          rw [find?_map_comm _ _ _ (fun ev => by rw [hidpres ev])]
          cases hfe : st.events.find? (fun x => x.id == eid) with
          | none => rfl
          | some ev =>
              simp only [Option.map_some]
              by_cases hev : ev.id = id
              · obtain ⟨h1, h2⟩ := hall ev (List.mem_of_find?_eq_some hfe) hev
                simp [hev, h1, h2]
              · simp [hev]
  · -- (c) deleteEvent of a foreign event
    intro id hall
    have hcase : ∀ res,
        st.events.filter (fun ev => ev.id ≠ id) = res →
        getEventsByCalendar { st with events := res } cal.id =
          getEventsByCalendar st cal.id := by
      intro res hres
      subst hres
      simp only [getEventsByCalendar, if_pos hcal]
      apply filter_filter_of
      intro a hmem hp
      have hacid : a.calendarId = cal.id := by simpa using hp
      have : a.id ≠ id := fun hid => hall a hmem hid hacid
      simpa using this
    have hroute : ∀ res,
        st.events.filter (fun ev => ev.id ≠ id) = res →
        ∀ eid, eventIcsRoute { st with events := res } cal eid =
          eventIcsRoute st cal eid := by
      intro res hres eid
      subst hres
      simp only [eventIcsRoute, getEvent]
      by_cases heid : eid = id
      · subst heid
        have hnone : (st.events.filter (fun ev => ev.id ≠ eid)).find?
            (fun x => x.id == eid) = none := by
          apply List.find?_eq_none.mpr
          intro ev hev hbeq
          have h1 := List.of_mem_filter hev
          have h2 : ev.id = eid := by simpa using hbeq
          simp [h2] at h1
        rw [hnone]
        cases hf : st.events.find? (fun x => x.id == eid) with
        | none => rfl
        | some e0 =>
            have hid : e0.id = eid := by
              have := List.find?_some hf
              simpa using this
            have := hall e0 (List.mem_of_find?_eq_some hf) hid
            simp [this]
      · rw [find?_filter_of]
        intro a hpa
        have : a.id = eid := by simpa using hpa
        simp [this, heid]
    cases hdel : getEvent st id with
    | none =>
        simp only [deleteEvent, hdel]
        exact ⟨hcase _ rfl, hroute _ rfl⟩
    | some e0 =>
        simp only [deleteEvent, hdel]
        exact ⟨hcase _ rfl, hroute _ rfl⟩

/-- Witness for C10 at a concrete two-calendar store: the foreign event is 404
on GET and on multiget, and a foreign create leaves this calendar's event list
unchanged. -/
theorem cross_calendar_noninterference_witness :
    eventIcsRoute
        ⟨[⟨1, "A", none, some 10, some 20⟩, ⟨2, "B", none, some 11, some 21⟩],
         [⟨1, 1, "own", none, none, 0, 1, none, some 5⟩,
          ⟨2, 2, "other", none, none, 0, 1, none, some 6⟩], []⟩
        ⟨1, "A", none, some 10, some 20⟩ 2 = .notFound ∧
    (multigetResponse ⟨["getetag", "calendar-data"], false, false, false⟩
        (getEventsByCalendar
          ⟨[⟨1, "A", none, some 10, some 20⟩, ⟨2, "B", none, some 11, some 21⟩],
           [⟨1, 1, "own", none, none, 0, 1, none, some 5⟩,
            ⟨2, 2, "other", none, none, 0, 1, none, some 6⟩], []⟩ 1)
        "/caldav/calendars/1/event-2.ics").notFound = true ∧
    getEventsByCalendar
        (createEvent
          ⟨[⟨1, "A", none, some 10, some 20⟩, ⟨2, "B", none, some 11, some 21⟩],
           [⟨1, 1, "own", none, none, 0, 1, none, some 5⟩,
            ⟨2, 2, "other", none, none, 0, 1, none, some 6⟩], []⟩
          ⟨3, 2, "new", none, none, 0, 1, none, none⟩ 99) 1 =
      getEventsByCalendar
        ⟨[⟨1, "A", none, some 10, some 20⟩, ⟨2, "B", none, some 11, some 21⟩],
         [⟨1, 1, "own", none, none, 0, 1, none, some 5⟩,
          ⟨2, 2, "other", none, none, 0, 1, none, some 6⟩], []⟩ 1 := by
  have h := cross_calendar_noninterference
    ⟨[⟨1, "A", none, some 10, some 20⟩, ⟨2, "B", none, some 11, some 21⟩],
     [⟨1, 1, "own", none, none, 0, 1, none, some 5⟩,
      ⟨2, 2, "other", none, none, 0, 1, none, some 6⟩], []⟩
    ⟨1, "A", none, some 10, some 20⟩ 99 (by decide)
  exact ⟨h.1 2 ⟨2, 2, "other", none, none, 0, 1, none, some 6⟩ (by decide) (by decide),
    h.2.1 ⟨["getetag", "calendar-data"], false, false, false⟩
      "/caldav/calendars/1/event-2.ics" 2 (by decide) (by decide),
    (h.2.2.1 ⟨3, 2, "new", none, none, 0, 1, none, none⟩ (by decide)).1⟩

theorem getetag_mem_found_response (p : ReportParse) (href : String)
    (h : "calendar-data" ∈ p.requested) :
    "getetag" ∈ propsWithStatus ⟨href, reportPropstats p, false⟩ 200 := by
  by_cases hu : p.hasScheduleTag ∨ p.hasCreatedBy ∨ p.hasUpdatedBy <;>
    simp [propsWithStatus, reportPropstats, h, hu]

/-- Claim C2: in both REPORT branches, every found event's response carries a
`getetag` element in its 200 propstat whenever the parsed requested set
contains `calendar-data`, even if `getetag` itself was not requested. -/
theorem report_calendar_data_pairs_getetag :
    ∀ (body : String) (cid : Nat) (events : List Event) (r : DavResponse),
      "calendar-data" ∈ (parseRequestedProperties body).requested →
      r ∈ (reportHandler body cid events).responses →
      r.notFound = false →
      "getetag" ∈ propsWithStatus r 200 := by
  intro body cid events r hcd hr hnf
  by_cases hfb : freebusyKeyword (strLower body) = true
  · simp [reportHandler, hfb] at hr
  · by_cases hm : (jsIncludes (strLower body) "calendar-multiget" ||
        jsIncludes (strLower body) "multiget") = true
    · simp only [reportHandler, hfb, Bool.false_eq_true, if_false, hm, if_true,
        List.mem_map] at hr
      obtain ⟨href, _, hrr⟩ := hr
      subst hrr
      unfold multigetResponse at hnf ⊢
      cases hx : extractEventId href with
      | none => simp [hx] at hnf
      | some eid =>
          by_cases h0 : eid ≠ 0
          · cases hl : eventMapLookup events eid with
            | none => simp [hx, h0, hl] at hnf
            | some ev =>
                simp only [hx, hl, if_pos h0]
                exact getetag_mem_found_response _ href hcd
          · simp [hx, h0] at hnf
    · simp only [reportHandler, hfb, Bool.false_eq_true, if_false, hm, List.mem_map] at hr
      obtain ⟨ev, _, hrr⟩ := hr
      subst hrr
      exact getetag_mem_found_response _ _ hcd

/-- Witness for C2: a calendar-query requesting only `calendar-data` still
pairs `getetag` into the 200 propstat of the event's response. -/
theorem report_calendar_data_pairs_getetag_witness :
    "calendar-data" ∈ (parseRequestedProperties
      "<C:calendar-query xmlns:C=\"urn:ietf:params:xml:ns:caldav\"><D:prop xmlns:D=\"DAV:\"><C:calendar-data/></D:prop></C:calendar-query>").requested ∧
    "getetag" ∈ propsWithStatus
      (queryResponse (parseRequestedProperties
        "<C:calendar-query xmlns:C=\"urn:ietf:params:xml:ns:caldav\"><D:prop xmlns:D=\"DAV:\"><C:calendar-data/></D:prop></C:calendar-query>")
        1 ⟨1, 1, "e", none, none, 0, 1, none, some 5⟩) 200 := by
  refine ⟨by decide, ?_⟩
  exact report_calendar_data_pairs_getetag
    "<C:calendar-query xmlns:C=\"urn:ietf:params:xml:ns:caldav\"><D:prop xmlns:D=\"DAV:\"><C:calendar-data/></D:prop></C:calendar-query>"
    1 [⟨1, 1, "e", none, none, 0, 1, none, some 5⟩]
    (queryResponse (parseRequestedProperties
      "<C:calendar-query xmlns:C=\"urn:ietf:params:xml:ns:caldav\"><D:prop xmlns:D=\"DAV:\"><C:calendar-data/></D:prop></C:calendar-query>")
      1 ⟨1, 1, "e", none, none, 0, 1, none, some 5⟩)
    (by decide) (by decide) (by decide)

/-- Claim C7 amended: a REPORT body is handled as a calendar-multiget exactly
when it contains the `multiget` keyword (not merely an href child) and no
free-busy keyword; in that case the multistatus holds exactly one response per
parsed href. -/
theorem report_multiget_keyword_one_response_per_href :
    ∀ (body : String) (cid : Nat) (events : List Event),
      freebusyKeyword (strLower body) = false →
      (jsIncludes (strLower body) "calendar-multiget" ||
        jsIncludes (strLower body) "multiget") = true →
      (reportHandler body cid events).status = 207 ∧
      (reportHandler body cid events).responses.length =
        (parseMultigetHrefs body).length := by
  intro body cid events hfb hm
  simp [reportHandler, hfb, hm]

/-- Witness for the amended C7: a calendar-multiget with one href yields one
response. -/
theorem report_multiget_keyword_one_response_per_href_witness :
    (reportHandler
      "<C:calendar-multiget xmlns:C=\"urn:ietf:params:xml:ns:caldav\" xmlns:D=\"DAV:\"><D:href>/caldav/calendars/1/event-2.ics</D:href></C:calendar-multiget>"
      1 []).status = 207 ∧
    (reportHandler
      "<C:calendar-multiget xmlns:C=\"urn:ietf:params:xml:ns:caldav\" xmlns:D=\"DAV:\"><D:href>/caldav/calendars/1/event-2.ics</D:href></C:calendar-multiget>"
      1 []).responses.length =
      (parseMultigetHrefs
        "<C:calendar-multiget xmlns:C=\"urn:ietf:params:xml:ns:caldav\" xmlns:D=\"DAV:\"><D:href>/caldav/calendars/1/event-2.ics</D:href></C:calendar-multiget>").length :=
  report_multiget_keyword_one_response_per_href
    "<C:calendar-multiget xmlns:C=\"urn:ietf:params:xml:ns:caldav\" xmlns:D=\"DAV:\"><D:href>/caldav/calendars/1/event-2.ics</D:href></C:calendar-multiget>"
    1 [] (by decide) (by decide)

/-- Counterexample to claim C7 as stated: this REPORT body carries one
namespace-prefixed href child and no free-busy keyword, yet — lacking the
`multiget` keyword — it is handled as a calendar-query with one response per
event (two responses for one requested href). -/
theorem report_href_without_multiget_keyword :
    (parseMultigetHrefs
      "<C:calendar-query xmlns:C=\"urn:ietf:params:xml:ns:caldav\" xmlns:D=\"DAV:\"><D:href>/caldav/calendars/1/event-2.ics</D:href></C:calendar-query>").length = 1 ∧
    freebusyKeyword (strLower
      "<C:calendar-query xmlns:C=\"urn:ietf:params:xml:ns:caldav\" xmlns:D=\"DAV:\"><D:href>/caldav/calendars/1/event-2.ics</D:href></C:calendar-query>") = false ∧
    (reportHandler
      "<C:calendar-query xmlns:C=\"urn:ietf:params:xml:ns:caldav\" xmlns:D=\"DAV:\"><D:href>/caldav/calendars/1/event-2.ics</D:href></C:calendar-query>"
      1 [⟨1, 1, "a", none, none, 0, 1, none, some 5⟩,
         ⟨2, 1, "b", none, none, 0, 1, none, some 6⟩]).responses.length = 2 :=
  ⟨by decide, by decide, by decide⟩

/-- Claim C8 amended: the body parsers and handlers are total; a PROPFIND
whose body yields no parseable prop children is answered 207 with the default
property `resourcetype` in its 200 propstat; a REPORT whose body is empty or
has no parseable prop section and does not match the free-busy keywords is
answered 207 using the default requested set `{getetag, calendar-data}` (a
free-busy body is instead answered 200); no branch can answer 500. -/
theorem handlers_degrade_to_defaults :
    ∀ (body depth : String) (cid : Nat) (events : List Event),
      (propfindCalendarHandler body depth cid events).status = 207 ∧
      ((reportHandler body cid events).status = 207 ∨
        (reportHandler body cid events).status = 200) ∧
      (parseRequestedProperties body).requested ≠ [] ∧
      (parsePropfindProperties body = [] →
        (propfindCalendarHandler body depth cid events).responses.head? =
          some (collectionResponse ["resourcetype"] cid) ∧
        "resourcetype" ∈ propsWithStatus (collectionResponse ["resourcetype"] cid) 200) ∧
      ((body = "" ∨ findPropSection [':'] body.data = none) →
        freebusyKeyword (strLower body) = false →
        (parseRequestedProperties body).requested = ["getetag", "calendar-data"] ∧
        (reportHandler body cid events).status = 207) := by
  intro body depth cid events
  refine ⟨rfl, ?_, ?_, ?_, ?_⟩
  · by_cases hfb : freebusyKeyword (strLower body) = true
    · right; simp [reportHandler, hfb]
    · left
      by_cases hm : (jsIncludes (strLower body) "calendar-multiget" ||
          jsIncludes (strLower body) "multiget") = true <;>
        simp [reportHandler, hfb, hm]
  · unfold parseRequestedProperties
    by_cases hb : body = ""
    · simp [hb]
    · simp only [hb, if_false]
      cases findPropSection [':'] body.data with
      | none => simp
      | some content =>
          simp only []
          by_cases hreq :
              ((if jsIncludes (strLower (String.mk content)) "getetag" then ["getetag"] else []) ++
                (if jsIncludes (strLower (String.mk content)) "calendar-data" then ["calendar-data"] else [])) = [] <;>
            simp [hreq]
  · intro hparsed
    constructor
    · simp [propfindCalendarHandler, hparsed]
    · have hps : propsWithStatus (collectionResponse ["resourcetype"] cid) 200 =
          ["resourcetype"] := by
        have hsup : collectionSupportedProps ["resourcetype"] = ["resourcetype"] := by decide
        have hunsup : collectionUnsupportedProps ["resourcetype"] = [] := by decide
        have hp200 : collectionProps200 ["resourcetype"] = ["resourcetype"] := by decide
        simp [propsWithStatus, collectionResponse, hsup, hunsup, hp200]
      rw [hps]
      simp
  · intro hnone hfb
    constructor
    · unfold parseRequestedProperties
      rcases hnone with hb | hsec
      · simp [hb]
      · by_cases hb : body = ""
        · simp [hb]
        · simp [hb, hsec]
    · by_cases hm : (jsIncludes (strLower body) "calendar-multiget" ||
        jsIncludes (strLower body) "multiget") = true <;>
        simp [reportHandler, hfb, hm]

/-- Witness for the amended C8 on a malformed body. -/
theorem handlers_degrade_to_defaults_witness :
    (propfindCalendarHandler "<bad" "0" 1 []).status = 207 ∧
    (propfindCalendarHandler "<bad" "0" 1 []).responses.head? =
      some (collectionResponse ["resourcetype"] 1) ∧
    "resourcetype" ∈ propsWithStatus (collectionResponse ["resourcetype"] 1) 200 ∧
    (parseRequestedProperties "<bad").requested = ["getetag", "calendar-data"] ∧
    (reportHandler "<bad" 1 []).status = 207 := by
  have h := handlers_degrade_to_defaults "<bad" "0" 1 []
  have hp := h.2.2.2.1 (by decide)
  have hr := h.2.2.2.2 (Or.inr (by decide)) (by decide)
  exact ⟨h.1, hp.1, hp.2, hr.1, hr.2⟩

/-- Counterexample to claim C8 as stated: a free-busy REPORT body has no
parseable prop children yet is answered 200 with the schedule-response
envelope, not 207 with the default requested set. -/
theorem report_freebusy_answers_200 :
    findPropSection [':']
      "<C:free-busy-query xmlns:C=\"urn:ietf:params:xml:ns:caldav\"/>".data = none ∧
    (reportHandler "<C:free-busy-query xmlns:C=\"urn:ietf:params:xml:ns:caldav\"/>"
      1 []).status = 200 :=
  ⟨by decide, by decide⟩

theorem mem_addIf_foldl (P : String → Prop) [DecidablePred P]
    (cond : String → List String → Prop) [inst : ∀ q acc, Decidable (cond q acc)]
    (hcond : ∀ q acc, cond q acc ↔ (P q ∨ q ∈ acc)) :
    ∀ (l acc : List String) (p : String),
      (p ∈ l.foldl (fun acc q => if cond q acc then acc else acc ++ [q]) acc) ↔
        (p ∈ acc ∨ (p ∈ l ∧ ¬ P p)) := by
  intro l
  induction l with
  | nil => intro acc p; simp
  | cons q l' ih =>
      intro acc p
      simp only [List.foldl_cons]
      rw [ih]
      by_cases hq : cond q acc
      · rw [if_pos hq]
        rw [hcond] at hq
        constructor
        · rintro (h | h)
          · exact Or.inl h
          · exact Or.inr ⟨List.mem_cons_of_mem _ h.1, h.2⟩
        · rintro (h | ⟨hmem, hP⟩)
          · exact Or.inl h
          · rcases List.mem_cons.mp hmem with rfl | h
            · rcases hq with hq | hq
              · exact absurd hq hP
              · exact Or.inl hq
            · exact Or.inr ⟨h, hP⟩
      · rw [if_neg hq]
        rw [hcond] at hq
        push_neg at hq
        constructor
        · rintro (h | h)
          · rcases List.mem_append.mp h with h | h
            · exact Or.inl h
            · simp only [List.mem_singleton] at h
              subst h
              exact Or.inr ⟨List.mem_cons_self p l', hq.1⟩
          · exact Or.inr ⟨List.mem_cons_of_mem _ h.1, h.2⟩
        · rintro (h | ⟨hmem, hP⟩)
          · exact Or.inl (List.mem_append.mpr (Or.inl h))
          · rcases List.mem_cons.mp hmem with rfl | h
            · exact Or.inl (List.mem_append.mpr (Or.inr (by simp)))
            · exact Or.inr ⟨h, hP⟩

theorem mem_collectionSupportedProps {requested : List String} {p : String} :
    p ∈ collectionSupportedProps requested ↔
      p ∈ collectionPushOrder ∧ p ∈ requested := by
  simp [collectionSupportedProps, List.mem_filter]

theorem mem_collectionProps200 {requested : List String} {p : String} :
    p ∈ collectionProps200 requested ↔
      p ∈ collectionEmitOrder ∧ p ∈ collectionSupportedProps requested := by
  simp [collectionProps200, List.mem_filter]

theorem mem_collectionUnsupportedProps {requested : List String} {p : String} :
    p ∈ collectionUnsupportedProps requested ↔
      ((p = "getcontenttype" ∧ "getcontenttype" ∈ requested) ∨
        (p ∈ requested ∧ p ∉ collectionSupportedProps requested)) := by
  unfold collectionUnsupportedProps
  rw [mem_addIf_foldl (fun q => q ∈ collectionSupportedProps requested)
    (fun q acc => q ∈ collectionSupportedProps requested ∨ q ∈ acc)
    (fun q acc => Iff.rfl)]
  by_cases hg : "getcontenttype" ∈ requested <;> simp [hg]

theorem mem_eventSupportedProps {requested : List String} {p : String} :
    p ∈ eventSupportedProps requested ↔
      ((p = "getetag" ∧ "getetag" ∈ requested) ∨
        (p = "getcontenttype" ∧ "getcontenttype" ∈ requested)) := by
  unfold eventSupportedProps
  by_cases h1 : "getetag" ∈ requested <;> by_cases h2 : "getcontenttype" ∈ requested <;>
    simp [h1, h2]

theorem mem_eventUnsupportedProps {requested : List String} {p : String} :
    p ∈ eventUnsupportedProps requested ↔
      (p ∈ requested ∧
        ¬ (p ∈ eventSupportedProps requested ∨ p ∈ eventExcludedProps)) := by
  unfold eventUnsupportedProps
  rw [mem_addIf_foldl
    (fun q => q ∈ eventSupportedProps requested ∨ q ∈ eventExcludedProps)
    (fun q acc => q ∈ eventSupportedProps requested ∨ q ∈ eventExcludedProps ∨ q ∈ acc)
    (fun q acc => by tauto)]
  simp

theorem propsWithStatus_collection_200_eq (requested : List String) (cid : Nat) :
    propsWithStatus (collectionResponse requested cid) 200 =
      collectionProps200 requested := by
  by_cases h1 : collectionSupportedProps requested = []
  · have h200 : collectionProps200 requested = [] := by
      rw [List.eq_nil_iff_forall_not_mem]
      intro p hp
      exact absurd (mem_collectionProps200.mp hp).2 (by simp [h1])
    by_cases h2 : collectionUnsupportedProps requested = [] <;>
      simp [collectionResponse, propsWithStatus, h1, h2, h200]
  · by_cases h2 : collectionUnsupportedProps requested = [] <;>
      simp [collectionResponse, propsWithStatus, h1, h2]

theorem propsWithStatus_collection_404_eq (requested : List String) (cid : Nat) :
    propsWithStatus (collectionResponse requested cid) 404 =
      collectionUnsupportedProps requested := by
  by_cases h1 : collectionSupportedProps requested = [] <;>
    by_cases h2 : collectionUnsupportedProps requested = [] <;>
      simp [collectionResponse, propsWithStatus, h1, h2]

theorem propsWithStatus_event_200_eq (requested : List String) (cid : Nat) (e : Event) :
    propsWithStatus (eventResponse requested cid e) 200 =
      eventSupportedProps requested := by
  by_cases h1 : eventSupportedProps requested = [] <;>
    by_cases h2 : eventUnsupportedProps requested = [] <;>
      simp [eventResponse, propsWithStatus, h1, h2]

theorem propsWithStatus_event_404_eq (requested : List String) (cid : Nat) (e : Event) :
    propsWithStatus (eventResponse requested cid e) 404 =
      eventUnsupportedProps requested := by
  by_cases h1 : eventSupportedProps requested = [] <;>
    by_cases h2 : eventUnsupportedProps requested = [] <;>
      simp [eventResponse, propsWithStatus, h1, h2]

/-- Claim C3 amended: in the collection PROPFIND response every requested
property lands in exactly one of the 200/404 propstat blocks; in a Depth-1
event response this partition holds only for properties outside the
collection-only exclusion list (`resourcetype`, `displayname`, `sync-token`,
`calendar-description`, `supported-calendar-component-set`, `getctag`,
`current-user-principal`, `owner`, `calendar-home-set`), which appear in
neither block of the event response. -/
theorem propfind_propstat_partition :
    ∀ (requested : List String) (cid : Nat) (e : Event) (p : String),
      p ∈ requested →
      ((p ∈ propsWithStatus (collectionResponse requested cid) 200 ∧
        p ∉ propsWithStatus (collectionResponse requested cid) 404) ∨
       (p ∉ propsWithStatus (collectionResponse requested cid) 200 ∧
        p ∈ propsWithStatus (collectionResponse requested cid) 404)) ∧
      (p ∈ eventExcludedProps →
        p ∉ propsWithStatus (eventResponse requested cid e) 200 ∧
        p ∉ propsWithStatus (eventResponse requested cid e) 404) ∧
      (p ∉ eventExcludedProps →
        ((p ∈ propsWithStatus (eventResponse requested cid e) 200 ∧
          p ∉ propsWithStatus (eventResponse requested cid e) 404) ∨
         (p ∉ propsWithStatus (eventResponse requested cid e) 200 ∧
          p ∈ propsWithStatus (eventResponse requested cid e) 404))) := by
  intro requested cid e p hp
  rw [propsWithStatus_collection_200_eq, propsWithStatus_collection_404_eq,
      propsWithStatus_event_200_eq, propsWithStatus_event_404_eq]
  refine ⟨?_, ?_, ?_⟩
  · by_cases hs : p ∈ collectionSupportedProps requested
    · left
      constructor
      · rw [mem_collectionProps200]
        have hpush := (mem_collectionSupportedProps.mp hs).1
        have hsub : ∀ q ∈ collectionPushOrder, q ∈ collectionEmitOrder := by decide
        exact ⟨hsub p hpush, hs⟩
      · rw [mem_collectionUnsupportedProps]
        rintro (⟨rfl, _⟩ | ⟨_, hns⟩)
        · have : ("getcontenttype" : String) ∉ collectionPushOrder := by decide
          exact this (mem_collectionSupportedProps.mp hs).1
        · exact hns hs
    · right
      constructor
      · rw [mem_collectionProps200]
        rintro ⟨_, hmem⟩
        exact hs hmem
      · rw [mem_collectionUnsupportedProps]
        exact Or.inr ⟨hp, hs⟩
  · intro hexcl
    constructor
    · rw [mem_eventSupportedProps]
      rintro (⟨rfl, _⟩ | ⟨rfl, _⟩)
      · exact absurd hexcl (by decide)
      · exact absurd hexcl (by decide)
    · rw [mem_eventUnsupportedProps]
      rintro ⟨_, hn⟩
      exact hn (Or.inr hexcl)
  · intro hexcl
    by_cases hs : p ∈ eventSupportedProps requested
    · left
      refine ⟨hs, ?_⟩
      rw [mem_eventUnsupportedProps]
      rintro ⟨_, hn⟩
      exact hn (Or.inl hs)
    · right
      refine ⟨hs, ?_⟩
      rw [mem_eventUnsupportedProps]
      refine ⟨hp, ?_⟩
      rintro (h | h)
      · exact hs h
      · exact hexcl h

/-- Counterexample to claim C3 as stated: with `resourcetype` and `getctag`
parsed from the body, the Depth-1 event response contains them in neither the
200 nor the 404 propstat (here the event response has no propstat at all). -/
theorem propfind_depth1_drops_collection_props :
    parsePropfindProperties
      "<D:propfind xmlns:D=\"DAV:\"><D:prop><D:resourcetype/><D:getctag/></D:prop></D:propfind>" =
      ["resourcetype", "getctag"] ∧
    (propfindCalendarHandler
      "<D:propfind xmlns:D=\"DAV:\"><D:prop><D:resourcetype/><D:getctag/></D:prop></D:propfind>"
      "1" 1 [⟨1, 1, "e", none, none, 0, 1, none, some 5⟩]).responses =
      [collectionResponse ["resourcetype", "getctag"] 1,
       eventResponse ["resourcetype", "getctag"] 1 ⟨1, 1, "e", none, none, 0, 1, none, some 5⟩] ∧
    "resourcetype" ∉ propsWithStatus
      (eventResponse ["resourcetype", "getctag"] 1
        ⟨1, 1, "e", none, none, 0, 1, none, some 5⟩) 200 ∧
    "resourcetype" ∉ propsWithStatus
      (eventResponse ["resourcetype", "getctag"] 1
        ⟨1, 1, "e", none, none, 0, 1, none, some 5⟩) 404 :=
  ⟨by decide, by decide, by decide, by decide⟩

/-- Witness for the amended C3: `displayname` lands in exactly one collection
propstat and in neither event propstat. -/
theorem propfind_propstat_partition_witness :
    (("displayname" ∈ propsWithStatus (collectionResponse ["getetag", "displayname"] 1) 200 ∧
      "displayname" ∉ propsWithStatus (collectionResponse ["getetag", "displayname"] 1) 404) ∨
     ("displayname" ∉ propsWithStatus (collectionResponse ["getetag", "displayname"] 1) 200 ∧
      "displayname" ∈ propsWithStatus (collectionResponse ["getetag", "displayname"] 1) 404)) ∧
    ("displayname" ∉ propsWithStatus
      (eventResponse ["getetag", "displayname"] 1
        ⟨1, 1, "e", none, none, 0, 1, none, some 5⟩) 200 ∧
     "displayname" ∉ propsWithStatus
      (eventResponse ["getetag", "displayname"] 1
        ⟨1, 1, "e", none, none, 0, 1, none, some 5⟩) 404) := by
  have h := propfind_propstat_partition ["getetag", "displayname"] 1
    ⟨1, 1, "e", none, none, 0, 1, none, some 5⟩ "displayname" (by decide)
  exact ⟨h.1, h.2.1 (by decide)⟩
